import Mathlib

/-!
Verification of the armies-battle combat core against its specification.

The TypeScript sources are embedded shallowly: JavaScript numbers become `ℚ`
(every arithmetic operation the embedded code performs — addition,
subtraction, multiplication, division by constants, `Math.round`, `Math.max`,
`Math.abs`, `Math.sign`, comparisons — is exact on the rational inputs the
claims are about), optional fields become `Option`, thrown exceptions become
`Except Unit`, and the mutation of shared unit objects inside the
fast-forward resolver becomes explicit threading of the global unit list.
-/

/- Batteries marks the arithmetic of `Rat` irreducible for the elaborator;
the concrete battle runs below are evaluated by `decide`, which needs these
operations to unfold (the kernel itself always could). -/
set_option allowUnsafeReducibility true
attribute [semireducible] Rat.add Rat.mul Rat.sub Rat.inv Rat.ofScientific

namespace ArmiesBattle


/-- JavaScript `Math.round`: rounds to the nearest integer, halves toward
positive infinity. -/
def jsRound (x : ℚ) : ℚ := ((⌊x + 1 / 2⌋ : ℤ) : ℚ)

/-- JavaScript `Math.sign` restricted to finite numbers. -/
def jsSign (x : ℚ) : ℚ := if 0 < x then 1 else if x < 0 then -1 else 0

/-- JavaScript `Math.max(lo, Math.min(hi, v))`, i.e. `Phaser.Math.Clamp`. -/
def jsClamp (v lo hi : ℚ) : ℚ := max lo (min hi v)

/-- JavaScript truthiness of an optional numeric field: `undefined` and `0`
are falsy, every other (finite) number is truthy. -/
def truthy : Option ℚ → Bool
  | some v => v != 0
  | none => false

/-- Modelled from the spec: `src/types/UnitType.ts` is not among the sources;
§3 describes "a unit-type identifier drawn from three disjoint variant
families: Regular, Hero, WarMachine", with the member names visible in the
sources that consume the enums (`unitRepository.ts`, `unitVisuals.ts`). -/
inductive RegularUnitType
  | wardHands | warrior | dwarf | golem | gargoyle | dendrite
  | undead | orc | halfling | elf | darkElf
  deriving DecidableEq, Fintype

/-- Modelled from the spec: hero family of `src/types/UnitType.ts` (absent
from the sources), members as listed in `unitRepository.ts`. -/
inductive HeroUnitType
  | warsmith | fighter | hammerLord | ogr | shadowBlade | ranger
  | pyromancer | cleric | druid | enchanter | necromancer
  deriving DecidableEq, Fintype

/-- Modelled from the spec: war-machine family of `src/types/UnitType.ts`
(absent from the sources), members as listed in `unitVisuals.ts`. -/
inductive WarMachineType
  | ballista | catapult | batteringRam | siegeTower
  deriving DecidableEq, Fintype

/-- The full `UnitType` union; the three families are disjoint (§3). -/
inductive UnitType
  | regular : RegularUnitType → UnitType
  | hero : HeroUnitType → UnitType
  | warMachine : WarMachineType → UnitType
  deriving DecidableEq, Fintype

/-- Modelled from the spec: `isHeroType` of the absent
`src/domain/army/unitTypeChecks.ts` is membership in the hero family. -/
def isHeroType : UnitType → Bool
  | UnitType.hero _ => true
  | _ => false

/-- Modelled from the spec: `isWarMachine` of the absent
`src/domain/army/unitTypeChecks.ts` is membership in the war-machine
family. -/
def isWarMachine : UnitType → Bool
  | UnitType.warMachine _ => true
  | _ => false

/-- Modelled from the spec: `isRegularUnit` of the absent
`src/domain/army/unitTypeChecks.ts` is membership in the regular family. -/
def isRegularUnit : UnitType → Bool
  | UnitType.regular _ => true
  | _ => false

/-- `CombatStats` of `src/domain/army/unitRepository.ts`. -/
structure CombatStats where
  attack : ℚ
  defense : ℚ
  health : ℚ
  speed : ℚ
  range : Option ℚ := none
  rangeDamage : Option ℚ := none
  deriving DecidableEq

/-- Keys of the `unitCombatStats` record: it is declared as
`Record<RegularUnitType | HeroUnitType, CombatStats>`, so war-machine
identifiers are not keys. -/
abbrev CatalogKey := RegularUnitType ⊕ HeroUnitType

/-- The unit catalog `unitCombatStats` of `src/domain/army/unitRepository.ts`,
entry for entry. -/
def unitCombatStats : CatalogKey → CombatStats
  | Sum.inl RegularUnitType.wardHands => { attack := 5, defense := 3, health := 20, speed := 2 }
  | Sum.inl RegularUnitType.warrior => { attack := 8, defense := 6, health := 25, speed := 2 }
  | Sum.inl RegularUnitType.dwarf => { attack := 12, defense := 20, health := 40, speed := 1 }
  | Sum.inl RegularUnitType.golem => { attack := 25, defense := 50, health := 10, speed := 5 }
  | Sum.inl RegularUnitType.gargoyle => { attack := 25, defense := 50, health := 10, speed := 5 }
  | Sum.inl RegularUnitType.dendrite => { attack := 25, defense := 50, health := 10, speed := 5 }
  | Sum.inl RegularUnitType.undead => { attack := 25, defense := 50, health := 10, speed := 5 }
  | Sum.inl RegularUnitType.orc => { attack := 10, defense := 15, health := 30, speed := 2 }
  | Sum.inl RegularUnitType.halfling =>
      { attack := 6, defense := 3, range := some 15, rangeDamage := some 8, health := 15, speed := 4 }
  | Sum.inl RegularUnitType.elf =>
      { attack := 15, defense := 4, range := some 20, rangeDamage := some 15, health := 20, speed := 3 }
  | Sum.inl RegularUnitType.darkElf =>
      { attack := 15, defense := 4, range := some 20, rangeDamage := some 15, health := 20, speed := 3 }
  | Sum.inr HeroUnitType.warsmith =>
      { attack := 30, defense := 3, range := some 2, rangeDamage := some 30, health := 18, speed := 4 }
  | Sum.inr HeroUnitType.fighter =>
      { attack := 30, defense := 3, range := some 2, rangeDamage := some 30, health := 18, speed := 4 }
  | Sum.inr HeroUnitType.hammerLord =>
      { attack := 40, defense := 3, range := some 2, rangeDamage := some 40, health := 25, speed := 4 }
  | Sum.inr HeroUnitType.ogr =>
      { attack := 40, defense := 4, range := some 2, rangeDamage := some 45, health := 30, speed := 3 }
  | Sum.inr HeroUnitType.shadowBlade =>
      { attack := 30, defense := 3, range := some 30, rangeDamage := some 30, health := 18, speed := 5 }
  | Sum.inr HeroUnitType.ranger =>
      { attack := 30, defense := 3, range := some 30, rangeDamage := some 30, health := 18, speed := 5 }
  | Sum.inr HeroUnitType.pyromancer =>
      { attack := 30, defense := 3, range := some 30, rangeDamage := some 30, health := 18, speed := 2 }
  | Sum.inr HeroUnitType.cleric =>
      { attack := 25, defense := 5, range := some 2, rangeDamage := some 25, health := 20, speed := 2 }
  | Sum.inr HeroUnitType.druid =>
      { attack := 20, defense := 4, range := some 2, rangeDamage := some 20, health := 22, speed := 3 }
  | Sum.inr HeroUnitType.enchanter =>
      { attack := 15, defense := 3, range := some 35, rangeDamage := some 15, health := 16, speed := 2 }
  | Sum.inr HeroUnitType.necromancer =>
      { attack := 35, defense := 2, range := some 25, rangeDamage := some 35, health := 15, speed := 2 }

/-- The JavaScript index `unitCombatStats[type]` for an arbitrary `UnitType`
key: war-machine identifiers are not keys of the record, so looking one up
yields `undefined` (`none`). -/
def unitCombatStatsLookup : UnitType → Option CombatStats
  | UnitType.regular r => some (unitCombatStats (Sum.inl r))
  | UnitType.hero h => some (unitCombatStats (Sum.inr h))
  | UnitType.warMachine _ => none

/-! `src/domain/battle/combatRules.ts` -/

/-- `BattleDerivedStats` of `combatRules.ts`. -/
structure BattleDerivedStats where
  speed : ℚ
  range : ℚ
  isRanged : Bool
  cooldownMs : ℚ
  deriving DecidableEq

/-- `AttackProfile` of `combatRules.ts`. -/
structure AttackProfile where
  attack : ℚ
  rangeDamage : Option ℚ := none
  deriving DecidableEq

/-- `DefenseProfile` of `combatRules.ts`. -/
structure DefenseProfile where
  defense : ℚ
  deriving DecidableEq

def DEFAULT_MELEE_RANGE : ℚ := 18

def RANGE_SCALE : ℚ := 5

def SPEED_SCALE : ℚ := 20

def RANGED_THRESHOLD : ℚ := 10

def RANGED_COOLDOWN_MS : ℚ := 700

def MELEE_COOLDOWN_MS : ℚ := 450

/-- `speedToPixelsPerSecond` of `combatRules.ts`. -/
def speedToPixelsPerSecond (speed : ℚ) : ℚ := speed * SPEED_SCALE

/-- `rangeToPixels` of `combatRules.ts`: the conditional `range ? … : …`
tests JavaScript truthiness, so both `undefined` and `0` select the melee
default. -/
def rangeToPixels (range : Option ℚ) : ℚ :=
  if truthy range then range.getD 0 * RANGE_SCALE else DEFAULT_MELEE_RANGE

/-- `deriveBattleStats` of `combatRules.ts`. -/
def deriveBattleStats (stats : CombatStats) : BattleDerivedStats :=
  { speed := speedToPixelsPerSecond stats.speed
    range := rangeToPixels stats.range
    isRanged :=
      match stats.range with
      | some r => decide (RANGED_THRESHOLD ≤ r)
      | none => false
    cooldownMs := if truthy stats.range then RANGED_COOLDOWN_MS else MELEE_COOLDOWN_MS }

/-- `calculateDamage` of `combatRules.ts`. -/
def calculateDamage (attacker : AttackProfile) (target : DefenseProfile) : ℚ :=
  let attackPower :=
    match attacker.rangeDamage with
    | some rd => if 0 < rd then rd else attacker.attack
    | none => attacker.attack
  let mitigation := target.defense * (45 / 100)
  let rawDamage := attackPower - mitigation
  max 1 (jsRound rawDamage)

/-! `src/types/WarMachineArming.ts` -/

/-- `ArmedWarMachine` of `WarMachineArming.ts`. -/
structure ArmedWarMachine where
  armedWith : RegularUnitType
  combatStats : CombatStats
  deriving DecidableEq

/-- `calculateArmedWarMachineStats` of `WarMachineArming.ts`. -/
def calculateArmedWarMachineStats (unitStats : CombatStats) : CombatStats :=
  let attack := jsRound (unitStats.attack * 2)
  let defense := jsRound (unitStats.defense * 2)
  let health := jsRound (unitStats.health * (5 / 2))
  let speed := jsRound (unitStats.speed * (1 / 2))
  let range : ℚ := 35
  let rangeDamage := jsRound (attack * (12 / 10))
  { attack := attack
    defense := defense
    health := health
    speed := speed
    range := some range
    rangeDamage := some rangeDamage }

/-! `src/domain/battle/simulateBattle.ts` — the fast-forward resolver.

Mutation of the shared `SimUnit` objects is modelled by threading one global
unit list: the per-tick `for` loop walks the ids of the sorted snapshot and
rewrites the list entry holding each touched unit, which is exactly what the
in-place mutation of the shared objects amounts to.  A thrown
`Missing combat stats` error is `Except.error ()`; the `while` loop runs on
explicit fuel, with `none` marking exhaustion (which, as proved below, only
happens for non-positive time steps, where the source loop never ends). -/

inductive Team
  | attacker | defender
  deriving DecidableEq

inductive BattleWinner
  | attacker | defender | draw
  deriving DecidableEq

/-- `SimUnit` of `simulateBattle.ts`. -/
structure SimUnit where
  id : ℕ
  team : Team
  type : UnitType
  attack : ℚ
  defense : ℚ
  hp : ℚ
  maxHp : ℚ
  speed : ℚ
  range : ℚ
  rangeDamage : Option ℚ
  isRanged : Bool
  cooldownMs : ℚ
  lastAttackAt : ℚ
  x : ℚ
  deriving DecidableEq

/-- `SimulationConfig` of `simulateBattle.ts`; every field participates in
the defaulting destructuring at the head of `simulateBattle`, so each is
optional here.  Unit counts are naturals: every caller passes whole pack
sizes, and the spawning loop `for (i = 0; i < n; i += 1)` counts them off. -/
structure SimulationConfig where
  attackerType : Option UnitType := none
  defenderType : Option UnitType := none
  packSize : Option ℕ := none
  attackerCount : Option ℕ := none
  defenderCount : Option ℕ := none
  maxDurationMs : Option ℚ := none
  timeStepMs : Option ℚ := none
  startDistance : Option ℚ := none
  deriving DecidableEq

/-- The `remaining` record of `SimulationResult`. -/
structure RemainingCount where
  attacker : ℕ
  defender : ℕ
  deriving DecidableEq

/-- `SimulationResult` of `simulateBattle.ts`. -/
structure SimulationResult where
  winner : BattleWinner
  remaining : RemainingCount
  durationMs : ℚ
  deriving DecidableEq

def DEFAULT_PACK_SIZE : ℕ := 20

def DEFAULT_MAX_DURATION_MS : ℚ := 60000

def DEFAULT_TIME_STEP_MS : ℚ := 50

def DEFAULT_START_DISTANCE : ℚ := 300

/-- `buildUnit` of `simulateBattle.ts`: throws (`Except.error`) when the
requested type has no catalog entry. -/
def buildUnit (type : UnitType) (team : Team) (id : ℕ) (x : ℚ) :
    Except Unit SimUnit :=
  match unitCombatStatsLookup type with
  | none => Except.error ()
  | some stats =>
      let derived := deriveBattleStats stats
      Except.ok
        { id := id
          team := team
          type := type
          attack := stats.attack
          defense := stats.defense
          hp := stats.health
          maxHp := stats.health
          speed := derived.speed
          range := derived.range
          rangeDamage := stats.rangeDamage
          isRanged := derived.isRanged
          cooldownMs := derived.cooldownMs
          lastAttackAt := 0
          x := x }

/-- `createPack` of `simulateBattle.ts`. -/
def createPack (type : UnitType) (team : Team) (packSize : ℕ) (startX : ℚ)
    (startId : ℕ) : Except Unit (List SimUnit) :=
  (List.range packSize).mapM (fun i => buildUnit type team (startId + i) startX)

/-- `findNearestEnemy` of `simulateBattle.ts`: skips dead enemies, keeps the
strictly closest by absolute x-distance, first found wins ties. -/
def findNearestEnemy (unit : SimUnit) (enemies : List SimUnit) : Option SimUnit :=
  enemies.foldl
    (fun nearest enemy =>
      if enemy.hp ≤ 0 then nearest
      else
        match nearest with
        | none => some enemy
        | some best => if |enemy.x - unit.x| < |best.x - unit.x| then some enemy else nearest)
    none

/-- The units of one team, in list order (the source keeps the two team
arrays separate; their contents are exactly these sublists). -/
def teamUnits (team : Team) (units : List SimUnit) : List SimUnit :=
  units.filter (fun u => decide (u.team = team))

/-- Stable insertion into a list sorted by ascending id. -/
def insertById (u : SimUnit) : List SimUnit → List SimUnit
  | [] => [u]
  | v :: rest => if u.id ≤ v.id then u :: v :: rest else v :: insertById u rest

/-- `[...attackers, ...defenders].sort((a, b) => a.id - b.id)`: a stable sort
by ascending id (ids are unique, so stability is immaterial). -/
def sortById (units : List SimUnit) : List SimUnit :=
  units.foldr insertById []

/-- One unit's turn (`stepUnit` of `simulateBattle.ts`, including the
`applyAttack` it may perform), acting on the global unit list: the acting
unit and its target are looked up by id so that mutations made earlier in
the same tick are visible, exactly as with the shared objects in the
source. -/
def stepUnitById (units : List SimUnit) (uid : ℕ) (time deltaMs : ℚ) :
    List SimUnit :=
  match units.find? (fun u => decide (u.id = uid)) with
  | none => units
  | some unit =>
      if unit.hp ≤ 0 then units
      else
        let enemies := units.filter (fun v => decide (v.team ≠ unit.team))
        match findNearestEnemy unit enemies with
        | none => units
        | some target =>
            let distance := |target.x - unit.x|
            if distance ≤ unit.range then
              if unit.cooldownMs ≤ time - unit.lastAttackAt then
                let damage :=
                  calculateDamage { attack := unit.attack, rangeDamage := unit.rangeDamage }
                    { defense := target.defense }
                units.map (fun v =>
                  if v.id = unit.id then { v with lastAttackAt := time }
                  else if v.id = target.id then { v with hp := v.hp - damage }
                  else v)
              else units
            else
              let moveDistance := unit.speed * deltaMs / 1000
              let direction := jsSign (target.x - unit.x)
              units.map (fun v =>
                if v.id = unit.id then { v with x := v.x + direction * moveDistance } else v)

/-- One iteration of the `while` loop body: walk all units in ascending-id
order, then drop the dead from both team lists. -/
def tick (units : List SimUnit) (time deltaMs : ℚ) : List SimUnit :=
  let orderedIds := (sortById units).map (fun u => u.id)
  let stepped := orderedIds.foldl (fun st uid => stepUnitById st uid time deltaMs) units
  stepped.filter (fun u => decide (0 < u.hp))

/-- The `while (time <= maxDurationMs && attackers.length > 0 &&
defenders.length > 0)` guard. -/
def loopCond (units : List SimUnit) (time maxDurationMs : ℚ) : Bool :=
  decide (time ≤ maxDurationMs) && decide (0 < (teamUnits Team.attacker units).length)
    && decide (0 < (teamUnits Team.defender units).length)

/-- The resolver's `while` loop on explicit fuel.  Also counts the executed
iterations; `none` is fuel exhaustion. -/
def simLoop : ℕ → List SimUnit → ℚ → ℚ → ℚ → ℕ → Option (List SimUnit × ℚ × ℕ)
  | 0, units, time, maxDurationMs, _, iters =>
      if loopCond units time maxDurationMs then none else some (units, time, iters)
  | fuel + 1, units, time, maxDurationMs, timeStepMs, iters =>
      if loopCond units time maxDurationMs then
        simLoop fuel (tick units time timeStepMs) (time + timeStepMs) maxDurationMs
          timeStepMs (iters + 1)
      else some (units, time, iters)

/-- Fuel that (for a positive step) provably outlasts the loop. -/
def simFuel (maxDurationMs timeStepMs : ℚ) : ℕ :=
  if 0 < timeStepMs then ⌊maxDurationMs / timeStepMs⌋.toNat + 1 else 0

def effAttackerType (c : SimulationConfig) : UnitType :=
  c.attackerType.getD (UnitType.regular RegularUnitType.warrior)

def effDefenderType (c : SimulationConfig) : UnitType :=
  c.defenderType.getD (UnitType.regular RegularUnitType.dwarf)

def effPackSize (c : SimulationConfig) : ℕ := c.packSize.getD DEFAULT_PACK_SIZE

def effAttackerCount (c : SimulationConfig) : ℕ :=
  c.attackerCount.getD (effPackSize c)

def effDefenderCount (c : SimulationConfig) : ℕ :=
  c.defenderCount.getD (effPackSize c)

def effMaxDurationMs (c : SimulationConfig) : ℚ :=
  c.maxDurationMs.getD DEFAULT_MAX_DURATION_MS

def effTimeStepMs (c : SimulationConfig) : ℚ :=
  c.timeStepMs.getD DEFAULT_TIME_STEP_MS

def effStartDistance (c : SimulationConfig) : ℚ :=
  c.startDistance.getD DEFAULT_START_DISTANCE

/-- Winner and remaining counts read off the final unit list, together with
the final `time` (the nested conditional mirrors the source's ternary). -/
def mkSimulationResult (finalUnits : List SimUnit) (time : ℚ) : SimulationResult :=
  let remA := (teamUnits Team.attacker finalUnits).length
  let remD := (teamUnits Team.defender finalUnits).length
  { winner :=
      if 0 < remA ∧ remD = 0 then BattleWinner.attacker
      else if 0 < remD ∧ remA = 0 then BattleWinner.defender
      else BattleWinner.draw
    remaining := { attacker := remA, defender := remD }
    durationMs := time }

/-- `simulateBattle` of `simulateBattle.ts`, instrumented with the number of
loop iterations executed. -/
def simulateBattleAux (config : SimulationConfig) :
    Except Unit (Option (SimulationResult × ℕ)) :=
  match createPack (effAttackerType config) Team.attacker
      (effAttackerCount config) 0 1 with
  | Except.error e => Except.error e
  | Except.ok attackers =>
      match createPack (effDefenderType config) Team.defender
          (effDefenderCount config) (effStartDistance config) (1 + attackers.length) with
      | Except.error e => Except.error e
      | Except.ok defenders =>
          match simLoop (simFuel (effMaxDurationMs config) (effTimeStepMs config))
              (attackers ++ defenders) 0 (effMaxDurationMs config)
              (effTimeStepMs config) 0 with
          | none => Except.ok none
          | some (finalUnits, time, iters) =>
              Except.ok (some (mkSimulationResult finalUnits time, iters))

/-- `simulateBattle` of `simulateBattle.ts`: `Except.error ()` is the thrown
`Missing combat stats` error; `Except.ok none` marks a run whose loop never
ends (only possible with a non-positive time step). -/
def simulateBattle (config : SimulationConfig) :
    Except Unit (Option SimulationResult) :=
  (simulateBattleAux config).map (Option.map Prod.fst)

/-! Theorems for the damage, derivation and arming formulas. -/

/-- Number of units of a team in the global list. -/
def countTeam (team : Team) (units : List SimUnit) : ℕ :=
  (teamUnits team units).length

/-- The configuration whose resolution throws: an (unarmed) war-machine
attacker type, absent from the catalog. -/
def cfgWarMachineThrow : SimulationConfig :=
  { attackerType := some (UnitType.warMachine WarMachineType.ballista)
    defenderType := some (UnitType.regular RegularUnitType.warrior)
    attackerCount := some 1
    defenderCount := some 1 }

/-- A short stalemate run: one warrior against one dwarf, 300 apart, 50 ms
steps, 100 ms cap.  The loop body runs for `time = 0, 50, 100`: three
iterations, while `maxDurationMs / timeStepMs = 2`. -/
def cfgShortDraw : SimulationConfig :=
  { attackerType := some (UnitType.regular RegularUnitType.warrior)
    defenderType := some (UnitType.regular RegularUnitType.dwarf)
    attackerCount := some 1
    defenderCount := some 1
    startDistance := some 300
    timeStepMs := some 50
    maxDurationMs := some 100 }

/-- The attacker-side unit of a stationary duel after `qA` own attacks and
`qD` enemy attacks. -/
def duelA (A0 : SimUnit) (s dmgDA : ℚ) (ma qA qD : ℕ) : SimUnit :=
  { A0 with hp := A0.hp - (qD : ℚ) * dmgDA, lastAttackAt := ((ma * qA : ℕ) : ℚ) * s }

/-- The defender-side unit of a stationary duel. -/
def duelD (D0 : SimUnit) (s dmgAD : ℚ) (md qA qD : ℕ) : SimUnit :=
  { D0 with hp := D0.hp - (qA : ℚ) * dmgAD, lastAttackAt := ((md * qD : ℕ) : ℚ) * s }

/-- The unit built for a stationary duel from a catalog entry. -/
def duelUnit (type_ : UnitType) (team_ : Team) (id_ : ℕ) (stats : CombatStats) : SimUnit :=
  { id := id_
    team := team_
    type := type_
    attack := stats.attack
    defense := stats.defense
    hp := stats.health
    maxHp := stats.health
    speed := (deriveBattleStats stats).speed
    range := (deriveBattleStats stats).range
    rangeDamage := stats.rangeDamage
    isRanged := (deriveBattleStats stats).isRanged
    cooldownMs := (deriveBattleStats stats).cooldownMs
    lastAttackAt := 0
    x := 0 }

/-- One warrior against one dwarf at zero distance, 50 ms steps, 90 s cap. -/
def cfgWarriorDwarfDuel : SimulationConfig :=
  { attackerType := some (UnitType.regular RegularUnitType.warrior)
    defenderType := some (UnitType.regular RegularUnitType.dwarf)
    attackerCount := some 1
    defenderCount := some 1
    startDistance := some 0
    timeStepMs := some 50
    maxDurationMs := some 90000 }

/-! `src/game/battleConfig.ts` and `src/game/DeployManager.ts`.

The deploy-time state is the pack map (insertion-ordered) plus the id
counter; the purely visual parts of the manager (sprites, selection
highlight, range indicator, arming-mode highlight) carry no simulation
state and are not modelled. -/

def MAP_WIDTH : ℚ := 1200

def MAP_HEIGHT : ℚ := 700

structure Zone where
  x : ℚ
  width : ℚ
  deriving DecidableEq

def ZONE_ATTACKER : Zone := { x := 0, width := MAP_WIDTH * (3 / 10) }

def ZONE_NEUTRAL : Zone := { x := MAP_WIDTH * (3 / 10), width := MAP_WIDTH * (1 / 10) }

def ZONE_DEFENDER : Zone := { x := MAP_WIDTH * (4 / 10), width := MAP_WIDTH * (6 / 10) }

def PACK_SIZE : ℕ := 20

def PACK_ROWS : ℕ := 4

def PACK_COLS : ℕ := 5

def PACK_SPACING : ℚ := 12

def MAX_UNITS : ℕ := 500

/-- `DeployPack` of `DeployManager.ts`; `x`, `y` stand for the sprite
position. -/
structure DeployPack where
  id : ℕ
  team : Team
  type : UnitType
  size : ℕ
  x : ℚ
  y : ℚ
  range : ℚ
  isRanged : Bool
  armedWarMachine : Option ArmedWarMachine := none
  deriving DecidableEq

/-- The pack map (insertion-ordered, as a JavaScript `Map` is) and the id
counter of `DeployManager`. -/
structure DMState where
  packs : List DeployPack
  nextPackId : ℕ
  deriving DecidableEq

def initialDMState : DMState := { packs := [], nextPackId := 1 }

namespace DeployManager

def getZoneForTeam : Team → Zone
  | Team.attacker => ZONE_ATTACKER
  | Team.defender => ZONE_DEFENDER

/-- `pointInZone` of `DeployManager.ts`: both horizontal bounds inclusive. -/
def pointInZone (x y : ℚ) (zone : Zone) : Bool :=
  decide (zone.x ≤ x) && decide (x ≤ zone.x + zone.width) &&
    decide (0 ≤ y) && decide (y ≤ MAP_HEIGHT)

/-- `clampToZone` of `DeployManager.ts`. -/
def clampToZone (x y : ℚ) (zone : Zone) : ℚ × ℚ :=
  (jsClamp x (zone.x + 8) (zone.x + zone.width - 8),
   jsClamp y 10 (MAP_HEIGHT - 10))

/-- `getTeamUnitCount` of `DeployManager.ts`. -/
def getTeamUnitCount (st : DMState) (team : Team) : ℕ :=
  ((st.packs.filter (fun p => decide (p.team = team))).map (fun p => p.size)).sum

/-- `createPack` of `DeployManager.ts`: for a war-machine type the catalog
lookup yields `undefined` and `deriveBattleStats` raises a `TypeError`
(`Except.error`). -/
def createPack (st : DMState) (x y : ℚ) (team : Team) (type : UnitType) (size : ℕ) :
    Except Unit (DeployPack × DMState) :=
  match unitCombatStatsLookup type with
  | none => Except.error ()
  | some combatData =>
      let derived := deriveBattleStats combatData
      let pack : DeployPack :=
        { id := st.nextPackId
          team := team
          type := type
          size := size
          x := x
          y := y
          range := derived.range
          isRanged := derived.isRanged }
      Except.ok (pack, { st with nextPackId := st.nextPackId + 1 })

/-- `spawnPack` of `DeployManager.ts`. -/
def spawnPack (st : DMState) (x y : ℚ) (team : Team) (type : UnitType) :
    Except Unit DMState :=
  let zone := getZoneForTeam team
  if pointInZone x y zone then
    let isSingleUnit := isHeroType type || isWarMachine type
    let unitsToSpawn := if isSingleUnit then 1 else PACK_SIZE
    if MAX_UNITS < getTeamUnitCount st team + unitsToSpawn then Except.ok st
    else
      let clamped := clampToZone x y zone
      match createPack st clamped.1 clamped.2 team type unitsToSpawn with
      | Except.error e => Except.error e
      | Except.ok (pack, st2) => Except.ok { st2 with packs := st2.packs ++ [pack] }
  else Except.ok st

/-- `armWarMachine` of `DeployManager.ts`, acting on the pack map; the two
packs are passed by value, mirroring the object references the method
receives.  The truthiness test `armingStats.range && armingStats.range > 0`
holds exactly when a positive range is present. -/
def armWarMachine (st : DMState) (warMachine armingPack : DeployPack) : DMState :=
  match armingPack.type with
  | UnitType.regular r =>
      let armingStats := unitCombatStats (Sum.inl r)
      if (match armingStats.range with
          | some v => decide (0 < v)
          | none => false) then st
      else if armingPack.size < PACK_SIZE then st
      else
        let armedStats := calculateArmedWarMachineStats armingStats
        { st with packs :=
            (st.packs.map (fun p =>
              if p.id = warMachine.id then
                { p with
                  armedWarMachine := some { armedWith := r, combatStats := armedStats }
                  range := rangeToPixels armedStats.range
                  isRanged := true }
              else p)).filter (fun p => decide (p.id ≠ armingPack.id)) }
  | _ => st

end DeployManager



/-- A ballista pack and an undersized warrior pack used to witness C7. -/
def ballistaPack : DeployPack :=
  { id := 1
    team := Team.attacker
    type := UnitType.warMachine WarMachineType.ballista
    size := 1
    x := 100
    y := 100
    range := 18
    isRanged := false }

/-- A five-strong (undersized) warrior pack. -/
def smallWarriorPack : DeployPack :=
  { id := 2
    team := Team.attacker
    type := UnitType.regular RegularUnitType.warrior
    size := 5
    x := 120
    y := 100
    range := 18
    isRanged := false }

/-! `src/game/BattleScene.ts` (the `DeployManager`-backed scene) and
`src/game/battleTypes.ts`. -/

/-- `Phase` of `battleTypes.ts`. -/
inductive Phase
  | deploy | battle
  deriving DecidableEq

/-- The battle-time `Unit` of `BattleScene.ts` (sprite position as `x`,
`y`). -/
structure BattleUnit where
  id : ℕ
  team : Team
  type : UnitType
  attack : ℚ
  defense : ℚ
  hp : ℚ
  maxHp : ℚ
  speed : ℚ
  range : ℚ
  rangeDamage : Option ℚ := none
  isRanged : Bool
  cooldownMs : ℚ
  lastAttackAt : ℚ
  x : ℚ
  y : ℚ
  targetId : Option ℕ := none
  armedWarMachine : Option ArmedWarMachine := none
  deriving DecidableEq

/-- The scene state: phase, the deploy manager, and the live units with the
id counter (the per-team index arrays are the team-filtered sublists). -/
structure SceneState where
  phase : Phase
  dm : DMState
  units : List BattleUnit
  nextUnitId : ℕ
  deriving DecidableEq

namespace BattleScene

/-- `applyArmedWarMachineStats` of `BattleScene.ts`. -/
def applyArmedWarMachineStats (unit : BattleUnit) (awm : ArmedWarMachine) : BattleUnit :=
  let armedStats := awm.combatStats
  let derived := deriveBattleStats armedStats
  { unit with
    attack := armedStats.attack
    defense := armedStats.defense
    maxHp := armedStats.health
    hp := armedStats.health
    speed := derived.speed
    range := derived.range
    rangeDamage := armedStats.rangeDamage
    isRanged := derived.isRanged
    cooldownMs := derived.cooldownMs }

/-- `createUnit` of `BattleScene.ts`: a missing catalog entry is logged and
reported as a no-op (the unit is simply not created). -/
def createUnit (st : SceneState) (x y : ℚ) (team : Team) (type : UnitType)
    (armedWarMachine : Option ArmedWarMachine) : SceneState :=
  match unitCombatStatsLookup type with
  | none => st
  | some combatData =>
      let derived := deriveBattleStats combatData
      let base : BattleUnit :=
        { id := st.nextUnitId
          team := team
          type := type
          attack := combatData.attack
          defense := combatData.defense
          hp := combatData.health
          maxHp := combatData.health
          speed := derived.speed
          range := derived.range
          rangeDamage := combatData.rangeDamage
          isRanged := derived.isRanged
          cooldownMs := derived.cooldownMs
          lastAttackAt := 0
          x := x
          y := y
          armedWarMachine := armedWarMachine }
      let unit :=
        match armedWarMachine with
        | some awm => applyArmedWarMachineStats base awm
        | none => base
      { st with units := st.units ++ [unit], nextUnitId := st.nextUnitId + 1 }

/-- `resetBattle` of `BattleScene.ts` (including `DeployManager.reset`). -/
def resetBattle (st : SceneState) : SceneState :=
  { phase := Phase.deploy
    dm := initialDMState
    units := []
    nextUnitId := 1 }

/-- `spawnUnitsForTeam` of `BattleScene.ts`. -/
def spawnUnitsForTeam (st : SceneState) (team : Team) (type : UnitType) (count : ℕ) :
    SceneState :=
  if count = 0 then st
  else
    let zone := DeployManager.getZoneForTeam team
    let minX := zone.x + 18
    let maxX := zone.x + zone.width - 18
    let centerX := jsClamp (zone.x + zone.width / 2) minX maxX
    let centerY := MAP_HEIGHT / 2
    let isSingleUnit := isHeroType type || isWarMachine type
    let spacing : ℚ := if isSingleUnit then 24 else PACK_SPACING
    let columns : ℕ := if isSingleUnit then 1 else PACK_COLS
    (List.range count).foldl
      (fun acc i =>
        let row := i / columns
        let col := i % columns
        let offsetX := ((col : ℚ) - ((columns : ℚ) - 1) / 2) * spacing
        let offsetY := ((row : ℚ) - 2) * spacing
        createUnit acc (jsClamp (centerX + offsetX) minX maxX)
          (jsClamp (centerY + offsetY) 10 (MAP_HEIGHT - 10)) team type none)
      st

/-- `autoResolveBattle` of `BattleScene.ts`: precondition checks, the
fast-forward call, then state rebuild for the winner.  A thrown error from
`simulateBattle` propagates; the `Except.ok none` loop-divergence marker
cannot occur at the fixed 50 ms step and is mapped to an error as well. -/
def autoResolveBattle (st : SceneState) : Except Unit (Option SimulationResult × SceneState) :=
  if st.phase ≠ Phase.deploy then Except.ok (none, st)
  else
    let packs := st.dm.packs
    let attackerPacks := packs.filter (fun p => decide (p.team = Team.attacker))
    let defenderPacks := packs.filter (fun p => decide (p.team = Team.defender))
    if attackerPacks.length = 0 ∨ defenderPacks.length = 0 then Except.ok (none, st)
    else
      match (attackerPacks.map (fun p => p.type)).dedup,
          (defenderPacks.map (fun p => p.type)).dedup with
      | [attackerType], [defenderType] =>
          if packs.any (fun p => isWarMachine p.type && p.armedWarMachine.isSome) then
            Except.ok (none, st)
          else
            let attackerCount := ((attackerPacks.map (fun p => p.size)).sum)
            let defenderCount := ((defenderPacks.map (fun p => p.size)).sum)
            match simulateBattle
                { attackerType := some attackerType
                  defenderType := some defenderType
                  attackerCount := some attackerCount
                  defenderCount := some defenderCount
                  startDistance := some 300
                  timeStepMs := some 50
                  maxDurationMs := some 90000 } with
            | Except.error e => Except.error e
            | Except.ok none => Except.error ()
            | Except.ok (some result) =>
                let st1 := { resetBattle st with phase := Phase.battle }
                let st2 :=
                  if result.winner = BattleWinner.attacker then
                    spawnUnitsForTeam st1 Team.attacker attackerType result.remaining.attacker
                  else if result.winner = BattleWinner.defender then
                    spawnUnitsForTeam st1 Team.defender defenderType result.remaining.defender
                  else st1
                Except.ok (some result, st2)
      | _, _ => Except.ok (none, st)

end BattleScene

/-- A deploy-phase scene with one attacker pack and no defenders. -/
def sceneLoneAttacker : SceneState :=
  { phase := Phase.deploy
    dm := { packs := [{ id := 1
                        team := Team.attacker
                        type := UnitType.regular RegularUnitType.warrior
                        size := 20
                        x := 100
                        y := 100
                        range := 18
                        isRanged := false }]
            nextPackId := 2 }
    units := []
    nextUnitId := 1 }

/-- C1: the shared damage function takes `rangeDamage` as attack power when
defined and positive (otherwise `attack`), subtracts `defense * 0.45`,
rounds, and floors the result at 1; in particular, for every attacker
profile with `attack ≥ 0` and defender profile with `defense ≥ 0` the damage
is at least 1. -/
theorem calculateDamage_formula_and_floor (a : AttackProfile) (t : DefenseProfile)
    (ha : 0 ≤ a.attack) (hd : 0 ≤ t.defense) :
    calculateDamage a t =
      max 1 (jsRound ((match a.rangeDamage with
        | some rd => if 0 < rd then rd else a.attack
        | none => a.attack) - t.defense * (45 / 100))) ∧
    1 ≤ calculateDamage a t := by
  refine ⟨rfl, ?_⟩
  unfold calculateDamage
  exact le_max_left _ _

/-- Witness for C1 at attack 8, defense 20 (a warrior striking a dwarf:
the raw damage `8 - 9 = -1` is lifted to the floor 1). -/
theorem calculateDamage_formula_and_floor_witness :
    calculateDamage { attack := 8 } { defense := 20 } =
      max 1 (jsRound ((match (none : Option ℚ) with
        | some rd => if 0 < rd then rd else (8 : ℚ)
        | none => (8 : ℚ)) - (20 : ℚ) * (45 / 100))) ∧
    1 ≤ calculateDamage { attack := 8 } { defense := 20 } :=
  calculateDamage_formula_and_floor { attack := 8 } { defense := 20 }
    (by norm_num) (by norm_num)

/-- C2: for stats whose optional range is positive when present (true of
every catalog entry), stat derivation returns exactly `speed * 20`,
`range * 5` (else the melee default 18), ranged-classification iff a range
of at least 10 is present, and cooldown 700 with a range present, else
450. -/
theorem deriveBattleStats_spec (stats : CombatStats)
    (hr : ∀ r, stats.range = some r → 0 < r) :
    (deriveBattleStats stats).speed = stats.speed * 20 ∧
    (deriveBattleStats stats).range =
      (match stats.range with | some r => r * 5 | none => 18) ∧
    ((deriveBattleStats stats).isRanged = true ↔
      ∃ r, stats.range = some r ∧ 10 ≤ r) ∧
    (deriveBattleStats stats).cooldownMs =
      (match stats.range with | some _ => 700 | none => 450) := by
  obtain ⟨att, de, he, sp, rg, rd⟩ := stats
  cases rg with
  | none =>
      refine ⟨rfl, rfl, ?_, rfl⟩
      simp [deriveBattleStats]
  | some r =>
      have hpos : 0 < r := hr r rfl
      have hne : r ≠ 0 := ne_of_gt hpos
      constructor
      · rfl
      constructor
      · simp [deriveBattleStats, rangeToPixels, truthy, RANGE_SCALE, DEFAULT_MELEE_RANGE, hne]
      constructor
      · simp [deriveBattleStats, RANGED_THRESHOLD]
      · simp [deriveBattleStats, truthy, RANGED_COOLDOWN_MS, MELEE_COOLDOWN_MS, hne]

/-- Witness for C2 at the halfling catalog entry
(attack 6, defense 3, health 15, speed 4, range 15, rangeDamage 8). -/
theorem deriveBattleStats_spec_witness :
    (deriveBattleStats (unitCombatStats (Sum.inl RegularUnitType.halfling))).speed =
        (unitCombatStats (Sum.inl RegularUnitType.halfling)).speed * 20 ∧
    (deriveBattleStats (unitCombatStats (Sum.inl RegularUnitType.halfling))).range =
      (match (unitCombatStats (Sum.inl RegularUnitType.halfling)).range with
        | some r => r * 5 | none => 18) ∧
    ((deriveBattleStats (unitCombatStats (Sum.inl RegularUnitType.halfling))).isRanged = true ↔
      ∃ r, (unitCombatStats (Sum.inl RegularUnitType.halfling)).range = some r ∧ 10 ≤ r) ∧
    (deriveBattleStats (unitCombatStats (Sum.inl RegularUnitType.halfling))).cooldownMs =
      (match (unitCombatStats (Sum.inl RegularUnitType.halfling)).range with
        | some _ => 700 | none => 450) :=
  deriveBattleStats_spec (unitCombatStats (Sum.inl RegularUnitType.halfling))
    (by intro r h; simp [unitCombatStats] at h; rw [← h]; norm_num)

/-- C3: arming a war machine is pure and deterministic, and the result is
exactly `attack' = round(attack*2)`, `defense' = round(defense*2)`,
`health' = round(health*2.5)`, `speed' = round(speed*0.5)`, `range' = 35`
regardless of any prior range, and `rangeDamage' = round(attack' * 1.2)`. -/
theorem calculateArmedWarMachineStats_spec (s : CombatStats) :
    calculateArmedWarMachineStats s = calculateArmedWarMachineStats s ∧
    (calculateArmedWarMachineStats s).attack = jsRound (s.attack * 2) ∧
    (calculateArmedWarMachineStats s).defense = jsRound (s.defense * 2) ∧
    (calculateArmedWarMachineStats s).health = jsRound (s.health * (5 / 2)) ∧
    (calculateArmedWarMachineStats s).speed = jsRound (s.speed * (1 / 2)) ∧
    (calculateArmedWarMachineStats s).range = some 35 ∧
    (calculateArmedWarMachineStats s).rangeDamage =
      some (jsRound (jsRound (s.attack * 2) * (12 / 10))) :=
  ⟨rfl, rfl, rfl, rfl, rfl, rfl, rfl⟩

/-! Helper lemmas about the fast-forward resolver. -/

lemma mapM_ok_of_pointwise {α β : Type} (f : α → Except Unit β) :
    ∀ l : List α, (∀ i ∈ l, ∃ u, f i = Except.ok u) →
      ∃ us, l.mapM f = Except.ok us := by
  intro l
  induction l with
  | nil => intro _; exact ⟨[], rfl⟩
  | cons a l ih =>
      intro h
      obtain ⟨u, hu⟩ := h a (List.mem_cons_self a l)
      obtain ⟨us, hus⟩ := ih (fun i hi => h i (List.mem_cons_of_mem a hi))
      exact ⟨u :: us, by rw [List.mapM_cons, hu, hus]; rfl⟩

lemma mapM_ok_inv {α β : Type} (f : α → Except Unit β) :
    ∀ (l : List α) (us : List β), l.mapM f = Except.ok us →
      us.length = l.length ∧ ∀ u ∈ us, ∃ i ∈ l, f i = Except.ok u := by
  intro l
  induction l with
  | nil =>
      intro us h
      have : us = [] := by
        rw [List.mapM_nil] at h
        exact (Except.ok.injEq _ _).mp h.symm
      subst this
      simp
  | cons a l ih =>
      intro us h
      rw [List.mapM_cons] at h
      cases ha : f a with
      | error e => rw [ha] at h; exact Except.noConfusion h
      | ok u =>
          rw [ha] at h
          cases hl : l.mapM f with
          | error e => rw [hl] at h; exact Except.noConfusion h
          | ok vs =>
              rw [hl] at h
              have h2 : (Except.ok (u :: vs) : Except Unit (List β)) = Except.ok us := h
              have hus : us = u :: vs := ((Except.ok.injEq _ _).mp h2).symm
              subst hus
              obtain ⟨hlen, hmem⟩ := ih vs hl
              refine ⟨by simp [hlen], ?_⟩
              intro v hv
              rcases List.mem_cons.mp hv with hv | hv
              · exact ⟨a, List.mem_cons_self a l, by rw [ha, hv]⟩
              · obtain ⟨i, hi, hfi⟩ := hmem v hv
                exact ⟨i, List.mem_cons_of_mem a hi, hfi⟩

lemma buildUnit_ok_team {type team id x u}
    (h : buildUnit type team id x = Except.ok u) : u.team = team := by
  unfold buildUnit at h
  cases hl : unitCombatStatsLookup type with
  | none => rw [hl] at h; exact absurd h (by simp)
  | some stats =>
      rw [hl] at h
      have := (Except.ok.injEq _ _).mp h
      rw [← this]

lemma buildUnit_ok_of_lookup {type stats} (h : unitCombatStatsLookup type = some stats)
    (team : Team) (id : ℕ) (x : ℚ) : ∃ u, buildUnit type team id x = Except.ok u := by
  unfold buildUnit
  rw [h]
  exact ⟨_, rfl⟩

lemma createPack_ok_of_lookup {type stats} (h : unitCombatStatsLookup type = some stats)
    (team : Team) (n : ℕ) (startX : ℚ) (startId : ℕ) :
    ∃ us, createPack type team n startX startId = Except.ok us :=
  mapM_ok_of_pointwise _ _ (fun i _ => buildUnit_ok_of_lookup h team (startId + i) startX)

lemma createPack_ok_inv {type team n startX startId us}
    (h : createPack type team n startX startId = Except.ok us) :
    us.length = n ∧ ∀ u ∈ us, u.team = team := by
  obtain ⟨hlen, hmem⟩ := mapM_ok_inv _ _ _ h
  refine ⟨by simpa using hlen, fun u hu => ?_⟩
  obtain ⟨i, _, hfi⟩ := hmem u hu
  exact buildUnit_ok_team hfi

/-- Once the guard fails, the loop returns immediately whatever the fuel. -/
lemma simLoop_exit {units : List SimUnit} {t max : ℚ}
    (h : loopCond units t max = false) (fuel : ℕ) (s : ℚ) (iters : ℕ) :
    simLoop fuel units t max s iters = some (units, t, iters) := by
  cases fuel <;> simp [simLoop, h]

/-- With fuel outlasting the time cap, the loop always reaches its exit. -/
lemma simLoop_total {s : ℚ} (hs : 0 < s) (max : ℚ) :
    ∀ (fuel : ℕ) (units : List SimUnit) (t : ℚ) (iters : ℕ),
      max < t + fuel * s → ∃ out, simLoop fuel units t max s iters = some out := by
  intro fuel
  induction fuel with
  | zero =>
      intro units t iters h
      have ht : ¬ (t ≤ max) := by
        simp only [Nat.cast_zero, zero_mul, add_zero] at h
        exact not_le.mpr h
      have hc : loopCond units t max = false := by
        simp [loopCond, ht]
      exact ⟨_, simLoop_exit hc 0 s iters⟩
  | succ n ih =>
      intro units t iters h
      cases hc : loopCond units t max with
      | false => exact ⟨_, simLoop_exit hc (n + 1) s iters⟩
      | true =>
          have h2 : max < (t + s) + n * s := by
            push_cast at h ⊢
            linarith
          obtain ⟨out, hout⟩ := ih (tick units t s) (t + s) (iters + 1) h2
          exact ⟨out, by simp [simLoop, hc, hout]⟩

/-- The loop executes at most `fuel` additional iterations. -/
lemma simLoop_iters_le :
    ∀ (fuel : ℕ) (units : List SimUnit) (t max s : ℚ) (iters : ℕ) out,
      simLoop fuel units t max s iters = some out → out.2.2 ≤ iters + fuel := by
  intro fuel
  induction fuel with
  | zero =>
      intro units t max s iters out h
      cases hc : loopCond units t max with
      | true => simp [simLoop, hc] at h
      | false =>
          simp only [simLoop, hc, Bool.false_eq_true, if_false] at h
          cases h
          simp
  | succ n ih =>
      intro units t max s iters out h
      cases hc : loopCond units t max with
      | false =>
          simp only [simLoop, hc, Bool.false_eq_true, if_false] at h
          cases h
          simp
      | true =>
          simp only [simLoop, hc, if_true] at h
          have := ih (tick units t s) (t + s) max s (iters + 1) out h
          omega

lemma countTeam_cons (team : Team) (u : SimUnit) (l : List SimUnit) :
    countTeam team (u :: l) =
      (if u.team = team then 1 else 0) + countTeam team l := by
  by_cases hu : u.team = team <;> simp [countTeam, teamUnits, hu] <;> omega

lemma countTeam_map_of_team_fixed {f : SimUnit → SimUnit}
    (hf : ∀ v, (f v).team = v.team) (team : Team) :
    ∀ units : List SimUnit, countTeam team (units.map f) = countTeam team units := by
  intro units
  induction units with
  | nil => rfl
  | cons u l ih =>
      rw [List.map_cons, countTeam_cons, countTeam_cons, hf, ih]

lemma countTeam_filter_le (q : SimUnit → Bool) (team : Team) :
    ∀ units : List SimUnit, countTeam team (units.filter q) ≤ countTeam team units := by
  intro units
  induction units with
  | nil => exact le_rfl
  | cons u l ih =>
      by_cases hq : q u = true
      · rw [List.filter_cons_of_pos hq, countTeam_cons, countTeam_cons]
        omega
      · rw [List.filter_cons_of_neg hq, countTeam_cons]
        have : countTeam team l ≤ (if u.team = team then 1 else 0) + countTeam team l := by
          omega
        exact le_trans ih this

lemma countTeam_stepUnitById (units : List SimUnit) (uid : ℕ) (t d : ℚ) (team : Team) :
    countTeam team (stepUnitById units uid t d) = countTeam team units := by
  unfold stepUnitById
  dsimp only
  repeat' split
  all_goals
    first
      | rfl
      | exact countTeam_map_of_team_fixed
          (by intro v
              repeat' split
              all_goals rfl) team units

lemma countTeam_fold_step (t d : ℚ) (team : Team) :
    ∀ (ids : List ℕ) (units : List SimUnit),
      countTeam team (ids.foldl (fun st uid => stepUnitById st uid t d) units) =
        countTeam team units := by
  intro ids
  induction ids with
  | nil => intro units; rfl
  | cons i l ih =>
      intro units
      simp only [List.foldl_cons]
      rw [ih, countTeam_stepUnitById]

lemma countTeam_tick_le (units : List SimUnit) (t d : ℚ) (team : Team) :
    countTeam team (tick units t d) ≤ countTeam team units := by
  unfold tick
  refine le_trans (countTeam_filter_le _ _ _) ?_
  rw [countTeam_fold_step]

lemma simLoop_countTeam_le (team : Team) :
    ∀ (fuel : ℕ) (units : List SimUnit) (t max s : ℚ) (iters : ℕ) out,
      simLoop fuel units t max s iters = some out →
      countTeam team out.1 ≤ countTeam team units := by
  intro fuel
  induction fuel with
  | zero =>
      intro units t max s iters out h
      cases hc : loopCond units t max <;> simp [simLoop, hc] at h
      · simp [← h]
  | succ n ih =>
      intro units t max s iters out h
      cases hc : loopCond units t max with
      | false =>
          simp [simLoop, hc] at h
          simp [← h]
      | true =>
          simp only [simLoop, hc, if_true] at h
          exact le_trans (ih (tick units t s) (t + s) max s (iters + 1) out h)
            (countTeam_tick_le units t s team)

lemma countTeam_append (team : Team) (l1 l2 : List SimUnit) :
    countTeam team (l1 ++ l2) = countTeam team l1 + countTeam team l2 := by
  simp [countTeam, teamUnits]

lemma countTeam_of_all_team {team : Team} :
    ∀ {l : List SimUnit}, (∀ u ∈ l, u.team = team) → countTeam team l = l.length := by
  intro l
  induction l with
  | nil => intro _; rfl
  | cons u l ih =>
      intro h
      have hu : u.team = team := h u (List.mem_cons_self u l)
      rw [countTeam_cons, if_pos hu, ih (fun v hv => h v (List.mem_cons_of_mem u hv)),
        List.length_cons]
      omega

lemma countTeam_of_all_other {team other : Team} (hne : other ≠ team) :
    ∀ {l : List SimUnit}, (∀ u ∈ l, u.team = other) → countTeam team l = 0 := by
  intro l
  induction l with
  | nil => intro _; rfl
  | cons u l ih =>
      intro h
      have hu : u.team = other := h u (List.mem_cons_self u l)
      have hut : ¬ (u.team = team) := by rw [hu]; exact hne
      rw [countTeam_cons, if_neg hut, ih (fun v hv => h v (List.mem_cons_of_mem u hv))]

lemma mkSimulationResult_draw (finalUnits : List SimUnit) (t : ℚ)
    (h1 : (mkSimulationResult finalUnits t).remaining.attacker ≠ 0)
    (h2 : (mkSimulationResult finalUnits t).remaining.defender ≠ 0) :
    (mkSimulationResult finalUnits t).winner = BattleWinner.draw := by
  unfold mkSimulationResult at h1 h2 ⊢
  dsimp only at h1 h2 ⊢
  rw [if_neg (by intro hc; exact h2 hc.2), if_neg (by intro hc; exact h1 hc.2)]

lemma simFuel_outlasts {max s : ℚ} (hs : 0 < s) :
    max < (simFuel max s : ℚ) * s := by
  unfold simFuel
  rw [if_pos hs]
  rcases le_or_lt 0 ⌊max / s⌋ with h0 | h0
  · have h1 : (⌊max / s⌋.toNat : ℤ) = ⌊max / s⌋ := Int.toNat_of_nonneg h0
    have hcast : ((⌊max / s⌋.toNat + 1 : ℕ) : ℚ) = (⌊max / s⌋ : ℚ) + 1 := by
      push_cast
      have h2 : ((⌊max / s⌋.toNat : ℚ)) = ((⌊max / s⌋ : ℚ)) := by exact_mod_cast h1
      rw [h2]
    rw [hcast]
    have h1 : max / s < (⌊max / s⌋ : ℚ) + 1 := Int.lt_floor_add_one _
    calc max = (max / s) * s := by field_simp
      _ < ((⌊max / s⌋ : ℚ) + 1) * s := by
          exact mul_lt_mul_of_pos_right h1 hs
  · have hz : ⌊max / s⌋.toNat = 0 := Int.toNat_of_nonpos (le_of_lt h0)
    rw [hz]
    have hneg : max / s < 0 := by
      have := Int.floor_lt.mp (by simpa using h0)
      simpa using this
    have : max < 0 := by
      by_contra hge
      push_neg at hge
      exact absurd (div_nonneg hge (le_of_lt hs)) (not_le.mpr hneg)
    calc max < 0 := this
      _ < ((0 + 1 : ℕ) : ℚ) * s := by simpa using hs

/-- C5 (amended): the resolver does not throw whenever both effective unit
types have catalog entries (every Regular and Hero type); a war-machine type
has no entry and makes `buildUnit` throw. -/
theorem simulateBattle_no_throw_for_catalog_types (cfg : SimulationConfig)
    (hA : (unitCombatStatsLookup (effAttackerType cfg)).isSome = true)
    (hD : (unitCombatStatsLookup (effDefenderType cfg)).isSome = true) :
    ∃ v, simulateBattleAux cfg = Except.ok v := by
  obtain ⟨sa, hsa⟩ := Option.isSome_iff_exists.mp hA
  obtain ⟨sd, hsd⟩ := Option.isSome_iff_exists.mp hD
  obtain ⟨as, has⟩ := createPack_ok_of_lookup hsa Team.attacker (effAttackerCount cfg) 0 1
  obtain ⟨ds, hds⟩ := createPack_ok_of_lookup hsd Team.defender (effDefenderCount cfg)
    (effStartDistance cfg) (1 + as.length)
  unfold simulateBattleAux
  simp only [has, hds]
  cases hL : simLoop (simFuel (effMaxDurationMs cfg) (effTimeStepMs cfg))
      (as ++ ds) 0 (effMaxDurationMs cfg) (effTimeStepMs cfg) 0 with
  | none => exact ⟨none, rfl⟩
  | some out =>
      obtain ⟨fu, ti, it⟩ := out
      exact ⟨some (mkSimulationResult fu ti, it), rfl⟩

/-- Witness for C5's amended theorem at the all-defaults configuration
(warrior vs dwarf, both in the catalog). -/
theorem simulateBattle_no_throw_for_catalog_types_witness :
    ∃ v, simulateBattleAux {} = Except.ok v :=
  simulateBattle_no_throw_for_catalog_types {} (by decide) (by decide)

/-- C5 counterexample: resolving a war-machine unit type throws (the
`Missing combat stats` error of `buildUnit`) instead of reporting a no-op or
null result. -/
theorem simulateBattle_throws_on_missing_catalog_entry :
    simulateBattle cfgWarMachineThrow = Except.error () := by rfl

/-- C9 (amended): with a positive time step the resolver's loop always
terminates, executes at most `⌊maxDurationMs / timeStepMs⌋ + 1` iterations
(one more than the claimed `maxDurationMs / timeStepMs`), and whenever both
sides remain non-empty at exit the winner is `'draw'`. -/
theorem simulateBattle_terminates_iterations_bounded (cfg : SimulationConfig)
    (hs : 0 < effTimeStepMs cfg) :
    simulateBattleAux cfg ≠ Except.ok none ∧
    ∀ r n, simulateBattleAux cfg = Except.ok (some (r, n)) →
      n ≤ ⌊effMaxDurationMs cfg / effTimeStepMs cfg⌋.toNat + 1 ∧
      (r.remaining.attacker ≠ 0 → r.remaining.defender ≠ 0 →
        r.winner = BattleWinner.draw) := by
  unfold simulateBattleAux
  cases hA : createPack (effAttackerType cfg) Team.attacker (effAttackerCount cfg) 0 1 with
  | error e =>
      simp only [hA]
      exact ⟨fun hh => Except.noConfusion hh, fun r n hh => Except.noConfusion hh⟩
  | ok as =>
      simp only [hA]
      cases hD : createPack (effDefenderType cfg) Team.defender (effDefenderCount cfg)
          (effStartDistance cfg) (1 + as.length) with
      | error e =>
          simp only [hD]
          exact ⟨fun hh => Except.noConfusion hh, fun r n hh => Except.noConfusion hh⟩
      | ok ds =>
          simp only [hD]
          have hbound : effMaxDurationMs cfg <
              0 + (simFuel (effMaxDurationMs cfg) (effTimeStepMs cfg) : ℚ) *
                effTimeStepMs cfg := by
            have := @simFuel_outlasts (effMaxDurationMs cfg) (effTimeStepMs cfg) hs
            linarith
          obtain ⟨out, hout⟩ := simLoop_total hs (effMaxDurationMs cfg)
            (simFuel (effMaxDurationMs cfg) (effTimeStepMs cfg)) (as ++ ds) 0 0
            (by simpa using hbound)
          obtain ⟨fu, ti, it⟩ := out
          simp only [hout]
          constructor
          · simp
          · intro r n h
            have h2 : (Except.ok (some (mkSimulationResult fu ti, it)) :
                Except Unit (Option (SimulationResult × ℕ))) =
                Except.ok (some (r, n)) := h
            have h3 := (Except.ok.injEq _ _).mp h2
            have h4 := (Option.some.injEq _ _).mp h3
            have hr : mkSimulationResult fu ti = r := congrArg Prod.fst h4
            have hn : it = n := congrArg Prod.snd h4
            subst hr hn
            refine ⟨?_, mkSimulationResult_draw fu ti⟩
            have := simLoop_iters_le _ _ _ _ _ _ _ hout
            simpa [simFuel, if_pos hs] using this

/-- Witness for C9's amended theorem at the all-defaults configuration
(time step 50 > 0). -/
theorem simulateBattle_terminates_iterations_bounded_witness :
    simulateBattleAux {} ≠ Except.ok none ∧
    ∀ r n, simulateBattleAux {} = Except.ok (some (r, n)) →
      n ≤ ⌊effMaxDurationMs {} / effTimeStepMs {}⌋.toNat + 1 ∧
      (r.remaining.attacker ≠ 0 → r.remaining.defender ≠ 0 →
        r.winner = BattleWinner.draw) :=
  simulateBattle_terminates_iterations_bounded {} (by decide)

/-- C9 counterexample: the loop executes `⌊maxDurationMs/timeStepMs⌋ + 1`
iterations — here three, exceeding the claimed bound
`maxDurationMs / timeStepMs = 2`. -/
theorem simulateBattle_iterations_exceed_claimed_bound :
    (match simulateBattleAux cfgShortDraw with
      | Except.ok (some (_, n)) => (n : ℚ)
      | _ => 0) = 3 ∧
    ¬ ((3 : ℚ) ≤ effMaxDurationMs cfgShortDraw / effTimeStepMs cfgShortDraw) := by
  constructor
  · rfl
  · decide

/-- C10: the resolver only ever removes units, so the reported survivor
counts lie between zero and the effective initial counts. -/
theorem simulateBattle_remaining_le_initial_counts (cfg : SimulationConfig)
    (r : SimulationResult) (n : ℕ)
    (h : simulateBattleAux cfg = Except.ok (some (r, n))) :
    0 ≤ r.remaining.attacker ∧ r.remaining.attacker ≤ effAttackerCount cfg ∧
    0 ≤ r.remaining.defender ∧ r.remaining.defender ≤ effDefenderCount cfg := by
  unfold simulateBattleAux at h
  cases hA : createPack (effAttackerType cfg) Team.attacker (effAttackerCount cfg) 0 1 with
  | error e => simp only [hA] at h; exact Except.noConfusion h
  | ok as =>
      simp only [hA] at h
      cases hD : createPack (effDefenderType cfg) Team.defender (effDefenderCount cfg)
          (effStartDistance cfg) (1 + as.length) with
      | error e => simp only [hD] at h; exact Except.noConfusion h
      | ok ds =>
          simp only [hD] at h
          cases hL : simLoop (simFuel (effMaxDurationMs cfg) (effTimeStepMs cfg))
              (as ++ ds) 0 (effMaxDurationMs cfg) (effTimeStepMs cfg) 0 with
          | none => simp only [hL] at h; exact absurd h (by simp)
          | some out =>
              obtain ⟨fu, ti, it⟩ := out
              simp only [hL] at h
              have h2 : (Except.ok (some (mkSimulationResult fu ti, it)) :
                  Except Unit (Option (SimulationResult × ℕ))) =
                  Except.ok (some (r, n)) := h
              have h3 := (Except.ok.injEq _ _).mp h2
              have h4 := (Option.some.injEq _ _).mp h3
              have hr : mkSimulationResult fu ti = r := congrArg Prod.fst h4
              obtain ⟨hlenA, hteamA⟩ := createPack_ok_inv hA
              obtain ⟨hlenD, hteamD⟩ := createPack_ok_inv hD
              have hle := simLoop_countTeam_le Team.attacker _ _ _ _ _ _ _ hL
              have hleD := simLoop_countTeam_le Team.defender _ _ _ _ _ _ _ hL
              have hinitA : countTeam Team.attacker (as ++ ds) = effAttackerCount cfg := by
                rw [countTeam_append, countTeam_of_all_team hteamA,
                  countTeam_of_all_other (by decide) hteamD, hlenA]
                omega
              have hinitD : countTeam Team.defender (as ++ ds) = effDefenderCount cfg := by
                rw [countTeam_append, countTeam_of_all_team hteamD,
                  countTeam_of_all_other (by decide) hteamA, hlenD]
                omega
              have hremA : r.remaining.attacker = countTeam Team.attacker fu := by
                rw [← hr]; rfl
              have hremD : r.remaining.defender = countTeam Team.defender fu := by
                rw [← hr]; rfl
              refine ⟨Nat.zero_le _, ?_, Nat.zero_le _, ?_⟩
              · rw [hremA, ← hinitA]; exact hle
              · rw [hremD, ← hinitD]; exact hleD

/-- Witness for C10 at the short stalemate run: both survivor counts equal
their initial count 1. -/
theorem simulateBattle_remaining_le_initial_counts_witness :
    0 ≤ ({ winner := BattleWinner.draw
           remaining := { attacker := 1, defender := 1 }
           durationMs := 150 } : SimulationResult).remaining.attacker ∧
    ({ winner := BattleWinner.draw
       remaining := { attacker := 1, defender := 1 }
       durationMs := 150 } : SimulationResult).remaining.attacker ≤
      effAttackerCount cfgShortDraw ∧
    0 ≤ ({ winner := BattleWinner.draw
           remaining := { attacker := 1, defender := 1 }
           durationMs := 150 } : SimulationResult).remaining.defender ∧
    ({ winner := BattleWinner.draw
       remaining := { attacker := 1, defender := 1 }
       durationMs := 150 } : SimulationResult).remaining.defender ≤
      effDefenderCount cfgShortDraw :=
  simulateBattle_remaining_le_initial_counts cfgShortDraw
    { winner := BattleWinner.draw
      remaining := { attacker := 1, defender := 1 }
      durationMs := 150 } 3 (by rfl)

/-- Evaluation of one tick of a stationary duel. -/
lemma tick_duel_eval (A D : SimUnit) (t dt : ℚ)
    (hidA : A.id = 1) (hidD : D.id = 2)
    (htA : A.team = Team.attacker) (htD : D.team = Team.defender)
    (hx : A.x = D.x)
    (hAhp : 0 < A.hp) (hDhp : 0 < D.hp)
    (hAr : 0 ≤ A.range) (hDr : 0 ≤ D.range) :
    tick [A, D] t dt =
      (let dmgA := calculateDamage { attack := A.attack, rangeDamage := A.rangeDamage }
         { defense := D.defense }
       let dmgD := calculateDamage { attack := D.attack, rangeDamage := D.rangeDamage }
         { defense := A.defense }
       let a1 : SimUnit := if A.cooldownMs ≤ t - A.lastAttackAt then { A with lastAttackAt := t } else A
       let d1 : SimUnit := if A.cooldownMs ≤ t - A.lastAttackAt then { D with hp := D.hp - dmgA } else D
       let a2 : SimUnit := if 0 < d1.hp ∧ d1.cooldownMs ≤ t - d1.lastAttackAt then { a1 with hp := a1.hp - dmgD } else a1
       let d2 : SimUnit := if 0 < d1.hp ∧ d1.cooldownMs ≤ t - d1.lastAttackAt then { d1 with lastAttackAt := t } else d1
       (if 0 < a2.hp then [a2] else []) ++ (if 0 < d2.hp then [d2] else [])) := by
  have hnA : ¬ A.hp ≤ 0 := not_le.mpr hAhp
  have hnD : ¬ D.hp ≤ 0 := not_le.mpr hDhp
  have hxx : D.x - A.x = 0 := by rw [hx]; ring
  have hxx2 : A.x - D.x = 0 := by rw [hx]; ring
  by_cases hAc : A.cooldownMs ≤ t - A.lastAttackAt
  · by_cases hDale : 0 < D.hp - calculateDamage { attack := A.attack, rangeDamage := A.rangeDamage } { defense := D.defense }
    · by_cases hDc : D.cooldownMs ≤ t - D.lastAttackAt
      · simp [tick, sortById, insertById, stepUnitById, findNearestEnemy, teamUnits, List.filter_cons, List.filter_nil,
          hidA, hidD, htA, htD, hxx, hxx2, hnA, hnD, hAr, hDr, hAc, hDc, hDale,
          not_le.mpr hDale, hAhp, hDhp]
        split <;> simp
      · simp [tick, sortById, insertById, stepUnitById, findNearestEnemy, teamUnits, List.filter_cons, List.filter_nil,
          hidA, hidD, htA, htD, hxx, hxx2, hnA, hnD, hAr, hDr, hAc, hDc, hDale,
          not_le.mpr hDale, hAhp, hDhp]
    · have hDdead : D.hp ≤ calculateDamage { attack := A.attack, rangeDamage := A.rangeDamage } { defense := D.defense } :=
        sub_nonpos.mp (not_lt.mp hDale)
      have hDdead2 : ¬ calculateDamage { attack := A.attack, rangeDamage := A.rangeDamage } { defense := D.defense } < D.hp :=
        not_lt.mpr hDdead
      simp [tick, sortById, insertById, stepUnitById, findNearestEnemy, teamUnits, List.filter_cons, List.filter_nil,
        hidA, hidD, htA, htD, hxx, hxx2, hnA, hnD, hAr, hDr, hAc, hDale, hDdead, hDdead2,
        hAhp, hDhp]
  · by_cases hDc : D.cooldownMs ≤ t - D.lastAttackAt
    · simp [tick, sortById, insertById, stepUnitById, findNearestEnemy, teamUnits, List.filter_cons, List.filter_nil,
        hidA, hidD, htA, htD, hxx, hxx2, hnA, hnD, hAr, hDr, hAc, hDc, hAhp, hDhp]
      split <;> simp
    · simp [tick, sortById, insertById, stepUnitById, findNearestEnemy, teamUnits, List.filter_cons, List.filter_nil,
        hidA, hidD, htA, htD, hxx, hxx2, hnA, hnD, hAr, hDr, hAc, hDc, hAhp, hDhp]

/-- The cooldown test of a stationary duel, as a counting condition. -/
lemma duel_cd_iff {m q k : ℕ} {s : ℚ} (hs : 0 < s) :
    ((m : ℚ) * s ≤ (k : ℚ) * s - ((m * q : ℕ) : ℚ) * s) ↔ m * (q + 1) ≤ k := by
  have h1 : ((m : ℚ) * s ≤ (k : ℚ) * s - ((m * q : ℕ) : ℚ) * s) ↔
      ((m : ℚ) + (m * q : ℕ) ≤ (k : ℚ)) := by
    constructor
    · intro h
      have := (mul_le_mul_right hs).mp (by linarith [h] : ((m : ℚ) + ((m * q : ℕ) : ℚ)) * s ≤ (k : ℚ) * s)
      linarith [this]
    · intro h
      have := (mul_le_mul_right hs).mpr h
      rw [add_mul] at this
      linarith
  rw [h1]
  push_cast
  constructor
  · intro h
    have : (m * (q + 1) : ℚ) ≤ (k : ℚ) := by push_cast; linarith
    exact_mod_cast this
  · intro h
    have : ((m * (q + 1) : ℕ) : ℚ) ≤ (k : ℚ) := by exact_mod_cast h
    push_cast at this
    linarith

/-- Remaining hit points are positive while fewer than the lethal number of
hits have landed. -/
lemma duel_hp_pos {hp dmg : ℚ} {q n : ℕ} (hdmg : 0 < dmg)
    (hceil : ((n : ℚ) - 1) * dmg < hp) (hq : q + 1 ≤ n) : 0 < hp - (q : ℚ) * dmg := by
  have hqn : (q : ℚ) ≤ (n : ℚ) - 1 := by
    have : ((q + 1 : ℕ) : ℚ) ≤ (n : ℚ) := by exact_mod_cast hq
    push_cast at this
    linarith
  nlinarith

/-- One non-lethal tick of the stationary duel: each side attacks exactly
when its cooldown boundary `ma * (q + 1)` is reached, and both survive. -/
lemma duel_tick_continue
    (A0 D0 : SimUnit) (s dmgAD dmgDA : ℚ) (ma md nA nD : ℕ)
    (hidA : A0.id = 1) (hidD : D0.id = 2)
    (htA : A0.team = Team.attacker) (htD : D0.team = Team.defender)
    (hx : A0.x = D0.x)
    (hAr : 0 ≤ A0.range) (hDr : 0 ≤ D0.range)
    (hs : 0 < s)
    (hcdA : A0.cooldownMs = (ma : ℚ) * s) (hcdD : D0.cooldownMs = (md : ℚ) * s)
    (hdAD : dmgAD = calculateDamage { attack := A0.attack, rangeDamage := A0.rangeDamage }
      { defense := D0.defense })
    (hdDA : dmgDA = calculateDamage { attack := D0.attack, rangeDamage := D0.rangeDamage }
      { defense := A0.defense })
    (hdADpos : 0 < dmgAD) (hdDApos : 0 < dmgDA)
    (hnA2 : ((nA : ℚ) - 1) * dmgAD < D0.hp)
    (hnD2 : ((nD : ℚ) - 1) * dmgDA < A0.hp)
    (hnApos : 1 ≤ nA) (hnDpos : 1 ≤ nD)
    (k qA qD : ℕ)
    (hkA : k < ma * nA) (hkD : k < md * nD)
    (hiA1 : qA = 0 ∨ ma * qA < k) (hiA2 : k ≤ ma * (qA + 1))
    (hiD1 : qD = 0 ∨ md * qD < k) (hiD2 : k ≤ md * (qD + 1)) :
    tick [duelA A0 s dmgDA ma qA qD, duelD D0 s dmgAD md qA qD] ((k : ℚ) * s) s =
      [duelA A0 s dmgDA ma (if ma * (qA + 1) ≤ k then qA + 1 else qA)
         (if md * (qD + 1) ≤ k then qD + 1 else qD),
       duelD D0 s dmgAD md (if ma * (qA + 1) ≤ k then qA + 1 else qA)
         (if md * (qD + 1) ≤ k then qD + 1 else qD)] := by
  have hmapos : 0 < ma := by
    rcases Nat.eq_zero_or_pos ma with h | h
    · subst h; simp at hkA
    · exact h
  have hmdpos : 0 < md := by
    rcases Nat.eq_zero_or_pos md with h | h
    · subst h; simp at hkD
    · exact h
  have hqA1 : qA + 1 ≤ nA := by
    rcases hiA1 with h0 | hlt
    · omega
    · have : ma * qA < ma * nA := lt_trans hlt hkA
      have := Nat.lt_of_mul_lt_mul_left this
      omega
  have hqD1 : qD + 1 ≤ nD := by
    rcases hiD1 with h0 | hlt
    · omega
    · have : md * qD < md * nD := lt_trans hlt hkD
      have := Nat.lt_of_mul_lt_mul_left this
      omega
  have hAalive : 0 < A0.hp - (qD : ℚ) * dmgDA := duel_hp_pos hdDApos hnD2 hqD1
  have hDalive : 0 < D0.hp - (qA : ℚ) * dmgAD := duel_hp_pos hdADpos hnA2 hqA1
  rw [tick_duel_eval (duelA A0 s dmgDA ma qA qD) (duelD D0 s dmgAD md qA qD) ((k : ℚ) * s) s
    (by simp [duelA, hidA]) (by simp [duelD, hidD])
    (by simp [duelA, htA]) (by simp [duelD, htD])
    (by simp [duelA, duelD, hx])
    (by simp only [duelA]; exact hAalive)
    (by simp only [duelD]; exact hDalive)
    (by simp [duelA, hAr]) (by simp [duelD, hDr])]
  have hcA : ((duelA A0 s dmgDA ma qA qD).cooldownMs ≤
      (k : ℚ) * s - (duelA A0 s dmgDA ma qA qD).lastAttackAt) ↔ ma * (qA + 1) ≤ k := by
    simp only [duelA]
    rw [hcdA]
    exact duel_cd_iff hs
  have hdmgA : calculateDamage
      { attack := (duelA A0 s dmgDA ma qA qD).attack,
        rangeDamage := (duelA A0 s dmgDA ma qA qD).rangeDamage }
      { defense := (duelD D0 s dmgAD md qA qD).defense } = dmgAD := by
    simp only [duelA, duelD]
    exact hdAD.symm
  have hdmgD : calculateDamage
      { attack := (duelD D0 s dmgAD md qA qD).attack,
        rangeDamage := (duelD D0 s dmgAD md qA qD).rangeDamage }
      { defense := (duelA A0 s dmgDA ma qA qD).defense } = dmgDA := by
    simp only [duelA, duelD]
    exact hdDA.symm
  by_cases haAtt : ma * (qA + 1) ≤ k
  · have hkEq : k = ma * (qA + 1) := Nat.le_antisymm hiA2 haAtt
    have hkEqQ : ((ma * (qA + 1) : ℕ) : ℚ) = (k : ℚ) := by exact_mod_cast hkEq.symm
    have hqA2 : qA + 1 + 1 ≤ nA := by
      have : ma * (qA + 1) < ma * nA := lt_of_le_of_lt haAtt hkA
      have := Nat.lt_of_mul_lt_mul_left this
      omega
    have hDalive2 : 0 < D0.hp - (qA : ℚ) * dmgAD - dmgAD := by
      have := duel_hp_pos hdADpos hnA2 hqA2
      push_cast at this ⊢
      linarith
    by_cases hdAttc : md * (qD + 1) ≤ k
    · have hkEqD : k = md * (qD + 1) := Nat.le_antisymm hiD2 hdAttc
      have hkEqDQ : ((md * (qD + 1) : ℕ) : ℚ) = (k : ℚ) := by exact_mod_cast hkEqD.symm
      have hqD2 : qD + 1 + 1 ≤ nD := by
        have : md * (qD + 1) < md * nD := lt_of_le_of_lt hdAttc hkD
        have := Nat.lt_of_mul_lt_mul_left this
        omega
      have hAalive2 : 0 < A0.hp - (qD : ℚ) * dmgDA - dmgDA := by
        have := duel_hp_pos hdDApos hnD2 hqD2
        push_cast at this ⊢
        linarith
      simp only [hdmgA, hdmgD, hcA, haAtt, if_pos, if_true]
      simp only [duelA, duelD, hcdD]
      have hDcond : (0 < D0.hp - (qA : ℚ) * dmgAD - dmgAD ∧
          (md : ℚ) * s ≤ (k : ℚ) * s - ((md * qD : ℕ) : ℚ) * s) :=
        ⟨hDalive2, (duel_cd_iff hs).mpr hdAttc⟩
      simp only [if_pos hDcond, if_pos hAalive2, if_pos hDalive2, if_pos hdAttc]
      simp [List.cons.injEq, SimUnit.mk.injEq, sub_sub, add_mul, one_mul, hkEqQ, hkEqDQ]
    · -- A attacks, D's cooldown has not yet elapsed
      simp only [hdmgA, hdmgD, hcA, haAtt, if_pos, if_true]
      simp only [duelA, duelD, hcdD]
      have hDcondF : ¬ (0 < D0.hp - (qA : ℚ) * dmgAD - dmgAD ∧
          (md : ℚ) * s ≤ (k : ℚ) * s - ((md * qD : ℕ) : ℚ) * s) := by
        intro hcon
        exact hdAttc ((duel_cd_iff hs).mp hcon.2)
      simp only [if_neg hDcondF, if_neg hdAttc, if_pos hAalive, if_pos hDalive2]
      simp [List.cons.injEq, SimUnit.mk.injEq, sub_sub, add_mul, one_mul, hkEqQ]
  · -- A's cooldown has not yet elapsed
    simp only [hdmgA, hdmgD, hcA, if_neg haAtt]
    by_cases hdAttc : md * (qD + 1) ≤ k
    · have hkEqD : k = md * (qD + 1) := Nat.le_antisymm hiD2 hdAttc
      have hkEqDQ : ((md * (qD + 1) : ℕ) : ℚ) = (k : ℚ) := by exact_mod_cast hkEqD.symm
      have hqD2 : qD + 1 + 1 ≤ nD := by
        have : md * (qD + 1) < md * nD := lt_of_le_of_lt hdAttc hkD
        have := Nat.lt_of_mul_lt_mul_left this
        omega
      have hAalive2 : 0 < A0.hp - (qD : ℚ) * dmgDA - dmgDA := by
        have := duel_hp_pos hdDApos hnD2 hqD2
        push_cast at this ⊢
        linarith
      simp only [duelA, duelD, hcdD]
      have hDcond : (0 < D0.hp - (qA : ℚ) * dmgAD ∧
          (md : ℚ) * s ≤ (k : ℚ) * s - ((md * qD : ℕ) : ℚ) * s) :=
        ⟨hDalive, (duel_cd_iff hs).mpr hdAttc⟩
      simp only [if_pos hDcond, if_pos hAalive2, if_pos hDalive, if_pos hdAttc, if_neg haAtt]
      simp [List.cons.injEq, SimUnit.mk.injEq, sub_sub, add_mul, one_mul, hkEqDQ]
    · simp only [duelA, duelD, hcdD]
      have hDcondF : ¬ (0 < D0.hp - (qA : ℚ) * dmgAD ∧
          (md : ℚ) * s ≤ (k : ℚ) * s - ((md * qD : ℕ) : ℚ) * s) := by
        intro hcon
        exact hdAttc ((duel_cd_iff hs).mp hcon.2)
      simp only [if_neg hDcondF, if_neg hdAttc, if_neg haAtt, if_pos hAalive, if_pos hDalive]
      simp [List.cons.injEq, SimUnit.mk.injEq]

/-- The lethal tick of the stationary duel: at `k = min (ma * nA) (md * nD)`
exactly one unit survives the tick. -/
lemma duel_tick_death
    (A0 D0 : SimUnit) (s dmgAD dmgDA : ℚ) (ma md nA nD : ℕ)
    (hidA : A0.id = 1) (hidD : D0.id = 2)
    (htA : A0.team = Team.attacker) (htD : D0.team = Team.defender)
    (hx : A0.x = D0.x)
    (hAr : 0 ≤ A0.range) (hDr : 0 ≤ D0.range)
    (hs : 0 < s)
    (hcdA : A0.cooldownMs = (ma : ℚ) * s) (hcdD : D0.cooldownMs = (md : ℚ) * s)
    (hdAD : dmgAD = calculateDamage { attack := A0.attack, rangeDamage := A0.rangeDamage }
      { defense := D0.defense })
    (hdDA : dmgDA = calculateDamage { attack := D0.attack, rangeDamage := D0.rangeDamage }
      { defense := A0.defense })
    (hdADpos : 0 < dmgAD) (hdDApos : 0 < dmgDA)
    (hnA1 : D0.hp ≤ (nA : ℚ) * dmgAD) (hnA2 : ((nA : ℚ) - 1) * dmgAD < D0.hp)
    (hnD1 : A0.hp ≤ (nD : ℚ) * dmgDA) (hnD2 : ((nD : ℚ) - 1) * dmgDA < A0.hp)
    (hnApos : 1 ≤ nA) (hnDpos : 1 ≤ nD)
    (hmapos : 0 < ma) (hmdpos : 0 < md)
    (k qA qD : ℕ)
    (hkA : k ≤ ma * nA) (hkD : k ≤ md * nD)
    (hdeath : k = ma * nA ∨ k = md * nD)
    (hiA1 : qA = 0 ∨ ma * qA < k) (hiA2 : k ≤ ma * (qA + 1))
    (hiD1 : qD = 0 ∨ md * qD < k) (hiD2 : k ≤ md * (qD + 1)) :
    ∃ u : SimUnit,
      tick [duelA A0 s dmgDA ma qA qD, duelD D0 s dmgAD md qA qD] ((k : ℚ) * s) s = [u] := by
  have hqA1 : qA + 1 ≤ nA := by
    rcases hiA1 with h0 | hlt
    · omega
    · have : ma * qA < ma * nA := lt_of_lt_of_le hlt hkA
      have := Nat.lt_of_mul_lt_mul_left this
      omega
  have hqD1 : qD + 1 ≤ nD := by
    rcases hiD1 with h0 | hlt
    · omega
    · have : md * qD < md * nD := lt_of_lt_of_le hlt hkD
      have := Nat.lt_of_mul_lt_mul_left this
      omega
  have hAalive : 0 < A0.hp - (qD : ℚ) * dmgDA := duel_hp_pos hdDApos hnD2 hqD1
  have hDalive : 0 < D0.hp - (qA : ℚ) * dmgAD := duel_hp_pos hdADpos hnA2 hqA1
  rw [tick_duel_eval (duelA A0 s dmgDA ma qA qD) (duelD D0 s dmgAD md qA qD) ((k : ℚ) * s) s
    (by simp [duelA, hidA]) (by simp [duelD, hidD])
    (by simp [duelA, htA]) (by simp [duelD, htD])
    (by simp [duelA, duelD, hx])
    (by simp only [duelA]; exact hAalive)
    (by simp only [duelD]; exact hDalive)
    (by simp [duelA, hAr]) (by simp [duelD, hDr])]
  have hcA : ((duelA A0 s dmgDA ma qA qD).cooldownMs ≤
      (k : ℚ) * s - (duelA A0 s dmgDA ma qA qD).lastAttackAt) ↔ ma * (qA + 1) ≤ k := by
    simp only [duelA]
    rw [hcdA]
    exact duel_cd_iff hs
  have hdmgA : calculateDamage
      { attack := (duelA A0 s dmgDA ma qA qD).attack,
        rangeDamage := (duelA A0 s dmgDA ma qA qD).rangeDamage }
      { defense := (duelD D0 s dmgAD md qA qD).defense } = dmgAD := by
    simp only [duelA, duelD]
    exact hdAD.symm
  have hdmgD : calculateDamage
      { attack := (duelD D0 s dmgAD md qA qD).attack,
        rangeDamage := (duelD D0 s dmgAD md qA qD).rangeDamage }
      { defense := (duelA A0 s dmgDA ma qA qD).defense } = dmgDA := by
    simp only [duelA, duelD]
    exact hdDA.symm
  by_cases hAdeath : k = ma * nA
  · have hqAeq : qA + 1 = nA := by
      have h1 : ma * nA ≤ ma * (qA + 1) := by rw [← hAdeath]; exact hiA2
      have h2 := Nat.le_of_mul_le_mul_left h1 hmapos
      omega
    have haAtt : ma * (qA + 1) ≤ k := by rw [hqAeq, hAdeath]
    have hcast : (qA : ℚ) + 1 = (nA : ℚ) := by exact_mod_cast hqAeq
    have hDdead : ¬ (0 < D0.hp - (qA : ℚ) * dmgAD - dmgAD) := by
      intro hcon
      have hub : D0.hp ≤ ((qA : ℚ) + 1) * dmgAD := by rw [hcast]; exact hnA1
      have hexp : ((qA : ℚ) + 1) * dmgAD = (qA : ℚ) * dmgAD + dmgAD := by ring
      linarith
    simp only [hdmgA, hdmgD, hcA, haAtt, if_pos, if_true]
    simp only [duelA, duelD, hcdD]
    have hDcondF : ¬ (0 < D0.hp - (qA : ℚ) * dmgAD - dmgAD ∧
        (md : ℚ) * s ≤ (k : ℚ) * s - ((md * qD : ℕ) : ℚ) * s) := by
      intro hcon
      exact hDdead hcon.1
    simp only [if_neg hDcondF, if_pos hAalive, if_neg hDdead]
    exact ⟨_, rfl⟩
  · have hDdeathk : k = md * nD := hdeath.resolve_left hAdeath
    have hkAlt : k < ma * nA := lt_of_le_of_ne hkA hAdeath
    have hqDeq : qD + 1 = nD := by
      have h1 : md * nD ≤ md * (qD + 1) := by rw [← hDdeathk]; exact hiD2
      have h2 := Nat.le_of_mul_le_mul_left h1 hmdpos
      omega
    have hdAtt : md * (qD + 1) ≤ k := by rw [hqDeq, hDdeathk]
    have hcastD : (qD : ℚ) + 1 = (nD : ℚ) := by exact_mod_cast hqDeq
    have hAdead : ¬ (0 < A0.hp - (qD : ℚ) * dmgDA - dmgDA) := by
      intro hcon
      have hub : A0.hp ≤ ((qD : ℚ) + 1) * dmgDA := by rw [hcastD]; exact hnD1
      have hexp : ((qD : ℚ) + 1) * dmgDA = (qD : ℚ) * dmgDA + dmgDA := by ring
      linarith
    by_cases haAtt : ma * (qA + 1) ≤ k
    · have hqA2 : qA + 1 + 1 ≤ nA := by
        have : ma * (qA + 1) < ma * nA := lt_of_le_of_lt haAtt hkAlt
        have := Nat.lt_of_mul_lt_mul_left this
        omega
      have hDalive2 : 0 < D0.hp - (qA : ℚ) * dmgAD - dmgAD := by
        have := duel_hp_pos hdADpos hnA2 hqA2
        push_cast at this ⊢
        linarith
      simp only [hdmgA, hdmgD, hcA, haAtt, if_pos, if_true]
      simp only [duelA, duelD, hcdD]
      have hDcond : (0 < D0.hp - (qA : ℚ) * dmgAD - dmgAD ∧
          (md : ℚ) * s ≤ (k : ℚ) * s - ((md * qD : ℕ) : ℚ) * s) :=
        ⟨hDalive2, (duel_cd_iff hs).mpr hdAtt⟩
      simp only [if_pos hDcond, if_neg hAdead, if_pos hDalive2]
      exact ⟨_, rfl⟩
    · simp only [hdmgA, hdmgD, hcA, if_neg haAtt]
      simp only [duelA, duelD, hcdD]
      have hDcond : (0 < D0.hp - (qA : ℚ) * dmgAD ∧
          (md : ℚ) * s ≤ (k : ℚ) * s - ((md * qD : ℕ) : ℚ) * s) :=
        ⟨hDalive, (duel_cd_iff hs).mpr hdAtt⟩
      simp only [if_pos hDcond, if_neg hAdead, if_pos hDalive]
      exact ⟨_, rfl⟩

/-- The stationary-duel loop: from tick `k` with attack counters `qA`, `qD`,
the resolver loop runs until the first death and exits at time
`(minK + 1) * s`. -/
lemma duel_loop
    (A0 D0 : SimUnit) (s maxq dmgAD dmgDA : ℚ) (ma md nA nD minK : ℕ)
    (hidA : A0.id = 1) (hidD : D0.id = 2)
    (htA : A0.team = Team.attacker) (htD : D0.team = Team.defender)
    (hx : A0.x = D0.x)
    (hAr : 0 ≤ A0.range) (hDr : 0 ≤ D0.range)
    (hs : 0 < s)
    (hcdA : A0.cooldownMs = (ma : ℚ) * s) (hcdD : D0.cooldownMs = (md : ℚ) * s)
    (hma : 1 ≤ ma) (hmd : 1 ≤ md)
    (hdAD : dmgAD = calculateDamage { attack := A0.attack, rangeDamage := A0.rangeDamage }
      { defense := D0.defense })
    (hdDA : dmgDA = calculateDamage { attack := D0.attack, rangeDamage := D0.rangeDamage }
      { defense := A0.defense })
    (hdADpos : 0 < dmgAD) (hdDApos : 0 < dmgDA)
    (hAhp : 0 < A0.hp) (hDhp : 0 < D0.hp)
    (hnA1 : D0.hp ≤ (nA : ℚ) * dmgAD) (hnA2 : ((nA : ℚ) - 1) * dmgAD < D0.hp)
    (hnD1 : A0.hp ≤ (nD : ℚ) * dmgDA) (hnD2 : ((nD : ℚ) - 1) * dmgDA < A0.hp)
    (hminK : minK = min (ma * nA) (md * nD))
    (hcap : (minK : ℚ) * s ≤ maxq) :
    ∀ (fuel : ℕ), ∀ (k qA qD iters : ℕ),
      k ≤ minK → minK < k + fuel →
      (qA = 0 ∨ ma * qA < k) → k ≤ ma * (qA + 1) →
      (qD = 0 ∨ md * qD < k) → k ≤ md * (qD + 1) →
      ∃ us, simLoop fuel
        [duelA A0 s dmgDA ma qA qD, duelD D0 s dmgAD md qA qD]
        ((k : ℚ) * s) maxq s iters
        = some (us, ((minK : ℚ) + 1) * s, iters + (minK + 1 - k)) := by
  have hnApos : 1 ≤ nA := by
    by_contra hcon
    push_neg at hcon
    interval_cases nA
    simp at hnA1
    linarith
  have hnDpos : 1 ≤ nD := by
    by_contra hcon
    push_neg at hcon
    interval_cases nD
    simp at hnD1
    linarith
  intro fuel
  induction fuel with
  | zero =>
      intro k qA qD iters hk hfuel _ _ _ _
      omega
  | succ fuel ih =>
      intro k qA qD iters hk hfuel hiA1 hiA2 hiD1 hiD2
      have hkA : k ≤ ma * nA := le_trans hk (by rw [hminK]; exact min_le_left _ _)
      have hkD : k ≤ md * nD := le_trans hk (by rw [hminK]; exact min_le_right _ _)
      have htime : (k : ℚ) * s ≤ maxq := by
        have h1 : (k : ℚ) ≤ (minK : ℚ) := by exact_mod_cast hk
        have h2 := mul_le_mul_of_nonneg_right h1 (le_of_lt hs)
        linarith
      have hcond : loopCond [duelA A0 s dmgDA ma qA qD, duelD D0 s dmgAD md qA qD]
          ((k : ℚ) * s) maxq = true := by
        simp [loopCond, teamUnits, duelA, duelD, htA, htD, htime]
      rcases Nat.lt_or_ge k minK with hklt | hkge
      · have hkAlt : k < ma * nA := lt_of_lt_of_le hklt (by rw [hminK]; exact min_le_left _ _)
        have hkDlt : k < md * nD := lt_of_lt_of_le hklt (by rw [hminK]; exact min_le_right _ _)
        simp only [simLoop, hcond, if_true]
        rw [duel_tick_continue A0 D0 s dmgAD dmgDA ma md nA nD hidA hidD htA htD hx hAr hDr
          hs hcdA hcdD hdAD hdDA hdADpos hdDApos hnA2 hnD2 hnApos hnDpos k qA qD
          hkAlt hkDlt hiA1 hiA2 hiD1 hiD2]
      -- the new attack counters after this tick
        have hmulA : ma * (qA + 1 + 1) = ma * (qA + 1) + ma := by ring
        have hmulD : md * (qD + 1 + 1) = md * (qD + 1) + md := by ring
        have hnewA1 : (if ma * (qA + 1) ≤ k then qA + 1 else qA) = 0 ∨
            ma * (if ma * (qA + 1) ≤ k then qA + 1 else qA) < k + 1 := by
          by_cases h : ma * (qA + 1) ≤ k
          · simp only [if_pos h]
            right
            omega
          · simp only [if_neg h]
            rcases hiA1 with h0 | hlt
            · exact Or.inl h0
            · exact Or.inr (by omega)
        have hnewA2 : k + 1 ≤ ma * ((if ma * (qA + 1) ≤ k then qA + 1 else qA) + 1) := by
          by_cases h : ma * (qA + 1) ≤ k
          · simp only [if_pos h]
            omega
          · simp only [if_neg h]
            omega
        have hnewD1 : (if md * (qD + 1) ≤ k then qD + 1 else qD) = 0 ∨
            md * (if md * (qD + 1) ≤ k then qD + 1 else qD) < k + 1 := by
          by_cases h : md * (qD + 1) ≤ k
          · simp only [if_pos h]
            right
            omega
          · simp only [if_neg h]
            rcases hiD1 with h0 | hlt
            · exact Or.inl h0
            · exact Or.inr (by omega)
        have hnewD2 : k + 1 ≤ md * ((if md * (qD + 1) ≤ k then qD + 1 else qD) + 1) := by
          by_cases h : md * (qD + 1) ≤ k
          · simp only [if_pos h]
            omega
          · simp only [if_neg h]
            omega
        obtain ⟨us, hus⟩ := ih (k + 1) (if ma * (qA + 1) ≤ k then qA + 1 else qA)
          (if md * (qD + 1) ≤ k then qD + 1 else qD) (iters + 1)
          (by omega) (by omega) hnewA1 hnewA2 hnewD1 hnewD2
        refine ⟨us, ?_⟩
        have htimeEq : (k : ℚ) * s + s = ((k + 1 : ℕ) : ℚ) * s := by push_cast; ring
        rw [htimeEq, hus]
        have hiters : iters + 1 + (minK + 1 - (k + 1)) = iters + (minK + 1 - k) := by omega
        rw [hiters]
      · have hkEq : k = minK := Nat.le_antisymm hk hkge
        subst hkEq
        have hdeath : k = ma * nA ∨ k = md * nD := by
          rw [hminK]
          rcases le_total (ma * nA) (md * nD) with h | h
          · exact Or.inl (min_eq_left h)
          · exact Or.inr (min_eq_right h)
        obtain ⟨u, hu⟩ := duel_tick_death A0 D0 s dmgAD dmgDA ma md nA nD hidA hidD htA htD
          hx hAr hDr hs hcdA hcdD hdAD hdDA hdADpos hdDApos hnA1 hnA2 hnD1 hnD2
          hnApos hnDpos (by omega) (by omega) k qA qD hkA hkD hdeath hiA1 hiA2 hiD1 hiD2
        simp only [simLoop, hcond, if_true]
        rw [hu]
        have hcondF : loopCond [u] ((k : ℚ) * s + s) maxq = false := by
          cases hteam : u.team <;> simp [loopCond, teamUnits, hteam]
        rw [simLoop_exit hcondF]
        refine ⟨[u], ?_⟩
        have h1 : (k : ℚ) * s + s = ((k : ℚ) + 1) * s := by ring
        have h2 : iters + 1 = iters + (k + 1 - k) := by omega
        rw [h1, h2]

/-- The shared damage formula never returns less than 1. -/
lemma calculateDamage_pos (a : AttackProfile) (t : DefenseProfile) :
    0 < calculateDamage a t :=
  lt_of_lt_of_le one_pos (le_max_left _ _)

/-- A pack of one unit. -/
lemma createPack_one {type : UnitType} {team : Team} {x : ℚ} {startId : ℕ} {u : SimUnit}
    (h : buildUnit type team startId x = Except.ok u) :
    createPack type team 1 x startId = Except.ok [u] := by
  have h0 : buildUnit type team (startId + 0) x = Except.ok u := by simpa using h
  unfold createPack
  rw [show List.range 1 = [0] by rfl, List.mapM_cons, h0, List.mapM_nil]
  rfl

/-- The number of hits needed to burn down `hp` at `dmg` per hit: the ceiling
of the quotient, with its characteristic bounds. -/
lemma ceil_hits_spec {hp dmg : ℚ} (hhp : 0 < hp) (hdmg : 0 < dmg) :
    hp ≤ ((⌈hp / dmg⌉.toNat : ℕ) : ℚ) * dmg ∧
    (((⌈hp / dmg⌉.toNat : ℕ) : ℚ) - 1) * dmg < hp ∧
    1 ≤ ⌈hp / dmg⌉.toNat ∧
    ((⌈hp / dmg⌉.toNat : ℕ) : ℚ) = ((⌈hp / dmg⌉ : ℤ) : ℚ) := by
  have hcpos : 0 < ⌈hp / dmg⌉ := Int.ceil_pos.mpr (div_pos hhp hdmg)
  have hcast : ((⌈hp / dmg⌉.toNat : ℕ) : ℤ) = ⌈hp / dmg⌉ := Int.toNat_of_nonneg (le_of_lt hcpos)
  have hcastQ : ((⌈hp / dmg⌉.toNat : ℕ) : ℚ) = ((⌈hp / dmg⌉ : ℤ) : ℚ) := by
    exact_mod_cast congrArg (fun z : ℤ => (z : ℚ)) hcast
  refine ⟨?_, ?_, ?_, hcastQ⟩
  · rw [hcastQ]
    have h1 : hp / dmg ≤ ((⌈hp / dmg⌉ : ℤ) : ℚ) := Int.le_ceil _
    calc hp = (hp / dmg) * dmg := by field_simp
      _ ≤ ((⌈hp / dmg⌉ : ℤ) : ℚ) * dmg := mul_le_mul_of_nonneg_right h1 (le_of_lt hdmg)
  · rw [hcastQ]
    have h1 : ((⌈hp / dmg⌉ : ℤ) : ℚ) - 1 < hp / dmg := by
      have := Int.ceil_lt_add_one (hp / dmg)
      linarith
    have h2 := mul_lt_mul_of_pos_right h1 hdmg
    calc (((⌈hp / dmg⌉ : ℤ) : ℚ) - 1) * dmg < (hp / dmg) * dmg := h2
      _ = hp := by field_simp
  · omega

lemma buildUnit_eq_duelUnit {type : UnitType} {stats : CombatStats}
    (h : unitCombatStatsLookup type = some stats) (team : Team) (id : ℕ) :
    buildUnit type team id 0 = Except.ok (duelUnit type team id stats) := by
  simp [buildUnit, duelUnit, h]

/-- C8 (amended): in a 1v1 stationary matchup (one unit per side, zero start
distance, catalog types, a positive time step dividing both cooldowns, and a
cap at least the first-death time), the reported `durationMs` is the claimed
`min` of `requiredHits * cooldownMs` over the two kill directions plus one
extra `timeStepMs`. -/
theorem simulateBattle_stationary_duel_duration
    (cfg : SimulationConfig) (sa sd : CombatStats) (ma md : ℕ)
    (hA : unitCombatStatsLookup (effAttackerType cfg) = some sa)
    (hD : unitCombatStatsLookup (effDefenderType cfg) = some sd)
    (hc1 : effAttackerCount cfg = 1) (hc2 : effDefenderCount cfg = 1)
    (hsd0 : effStartDistance cfg = 0)
    (hs : 0 < effTimeStepMs cfg)
    (hcdA : (deriveBattleStats sa).cooldownMs = (ma : ℚ) * effTimeStepMs cfg) (hma : 1 ≤ ma)
    (hcdD : (deriveBattleStats sd).cooldownMs = (md : ℚ) * effTimeStepMs cfg) (hmd : 1 ≤ md)
    (hAhp : 0 < sa.health) (hDhp : 0 < sd.health)
    (hAr : 0 ≤ (deriveBattleStats sa).range) (hDr : 0 ≤ (deriveBattleStats sd).range)
    (hcap :
      min ((deriveBattleStats sa).cooldownMs *
          ((⌈sd.health / calculateDamage { attack := sa.attack, rangeDamage := sa.rangeDamage }
            { defense := sd.defense }⌉ : ℤ) : ℚ))
        ((deriveBattleStats sd).cooldownMs *
          ((⌈sa.health / calculateDamage { attack := sd.attack, rangeDamage := sd.rangeDamage }
            { defense := sa.defense }⌉ : ℤ) : ℚ)) ≤ effMaxDurationMs cfg) :
    ∃ r n, simulateBattleAux cfg = Except.ok (some (r, n)) ∧
      r.durationMs =
        min ((deriveBattleStats sa).cooldownMs *
            ((⌈sd.health / calculateDamage { attack := sa.attack, rangeDamage := sa.rangeDamage }
              { defense := sd.defense }⌉ : ℤ) : ℚ))
          ((deriveBattleStats sd).cooldownMs *
            ((⌈sa.health / calculateDamage { attack := sd.attack, rangeDamage := sd.rangeDamage }
              { defense := sa.defense }⌉ : ℤ) : ℚ)) + effTimeStepMs cfg := by
  have hdADpos : 0 < calculateDamage { attack := sa.attack, rangeDamage := sa.rangeDamage }
      { defense := sd.defense } := calculateDamage_pos _ _
  have hdDApos : 0 < calculateDamage { attack := sd.attack, rangeDamage := sd.rangeDamage }
      { defense := sa.defense } := calculateDamage_pos _ _
  obtain ⟨hnA1, hnA2, hnApos, hnAcast⟩ := ceil_hits_spec hDhp hdADpos
  obtain ⟨hnD1, hnD2, hnDpos, hnDcast⟩ := ceil_hits_spec hAhp hdDApos
  have hbridge :
      ((min (ma * (⌈sd.health / calculateDamage { attack := sa.attack, rangeDamage := sa.rangeDamage }
            { defense := sd.defense }⌉.toNat))
          (md * (⌈sa.health / calculateDamage { attack := sd.attack, rangeDamage := sd.rangeDamage }
            { defense := sa.defense }⌉.toNat)) : ℕ) : ℚ) * effTimeStepMs cfg =
      min ((deriveBattleStats sa).cooldownMs *
          ((⌈sd.health / calculateDamage { attack := sa.attack, rangeDamage := sa.rangeDamage }
            { defense := sd.defense }⌉ : ℤ) : ℚ))
        ((deriveBattleStats sd).cooldownMs *
          ((⌈sa.health / calculateDamage { attack := sd.attack, rangeDamage := sd.rangeDamage }
            { defense := sa.defense }⌉ : ℤ) : ℚ)) := by
    rw [Nat.cast_min, min_mul_of_nonneg _ _ (le_of_lt hs)]
    congr 1
    · rw [hcdA, ← hnAcast]
      push_cast
      ring
    · rw [hcdD, ← hnDcast]
      push_cast
      ring
  have hbA := buildUnit_eq_duelUnit hA Team.attacker 1
  have hbD := buildUnit_eq_duelUnit hD Team.defender 2
  have hpackA : createPack (effAttackerType cfg) Team.attacker (effAttackerCount cfg) 0 1 =
      Except.ok [duelUnit (effAttackerType cfg) Team.attacker 1 sa] := by
    rw [hc1]
    exact createPack_one hbA
  have hpackD : createPack (effDefenderType cfg) Team.defender (effDefenderCount cfg)
      (effStartDistance cfg)
      (1 + [duelUnit (effAttackerType cfg) Team.attacker 1 sa].length) =
      Except.ok [duelUnit (effDefenderType cfg) Team.defender 2 sd] := by
    rw [hc2, hsd0]
    exact createPack_one hbD
  have hfuel : min (ma * ⌈sd.health / calculateDamage
        { attack := sa.attack, rangeDamage := sa.rangeDamage } { defense := sd.defense }⌉.toNat)
      (md * ⌈sa.health / calculateDamage
        { attack := sd.attack, rangeDamage := sd.rangeDamage } { defense := sa.defense }⌉.toNat) <
      0 + simFuel (effMaxDurationMs cfg) (effTimeStepMs cfg) := by
    have hcap2 : ((min (ma * ⌈sd.health / calculateDamage
          { attack := sa.attack, rangeDamage := sa.rangeDamage } { defense := sd.defense }⌉.toNat)
        (md * ⌈sa.health / calculateDamage
          { attack := sd.attack, rangeDamage := sd.rangeDamage } { defense := sa.defense }⌉.toNat) :
          ℕ) : ℚ) * effTimeStepMs cfg ≤ effMaxDurationMs cfg := by
      rw [hbridge]
      exact hcap
    have hdiv : ((min (ma * ⌈sd.health / calculateDamage
          { attack := sa.attack, rangeDamage := sa.rangeDamage } { defense := sd.defense }⌉.toNat)
        (md * ⌈sa.health / calculateDamage
          { attack := sd.attack, rangeDamage := sd.rangeDamage } { defense := sa.defense }⌉.toNat) :
          ℕ) : ℚ) ≤ effMaxDurationMs cfg / effTimeStepMs cfg :=
      (le_div_iff hs).mpr hcap2
    have hfloor : ((min (ma * ⌈sd.health / calculateDamage
          { attack := sa.attack, rangeDamage := sa.rangeDamage } { defense := sd.defense }⌉.toNat)
        (md * ⌈sa.health / calculateDamage
          { attack := sd.attack, rangeDamage := sd.rangeDamage } { defense := sa.defense }⌉.toNat) :
          ℕ) : ℤ) ≤ ⌊effMaxDurationMs cfg / effTimeStepMs cfg⌋ := by
      rw [Int.le_floor]
      exact_mod_cast hdiv
    have hfnn : (0 : ℤ) ≤ ⌊effMaxDurationMs cfg / effTimeStepMs cfg⌋ :=
      le_trans (by positivity) hfloor
    have := (Int.le_toNat hfnn).mpr hfloor
    unfold simFuel
    rw [if_pos hs]
    omega
  obtain ⟨us, hus⟩ := duel_loop (duelUnit (effAttackerType cfg) Team.attacker 1 sa)
    (duelUnit (effDefenderType cfg) Team.defender 2 sd)
    (effTimeStepMs cfg) (effMaxDurationMs cfg)
    (calculateDamage { attack := sa.attack, rangeDamage := sa.rangeDamage }
      { defense := sd.defense })
    (calculateDamage { attack := sd.attack, rangeDamage := sd.rangeDamage }
      { defense := sa.defense })
    ma md
    (⌈sd.health / calculateDamage { attack := sa.attack, rangeDamage := sa.rangeDamage }
      { defense := sd.defense }⌉.toNat)
    (⌈sa.health / calculateDamage { attack := sd.attack, rangeDamage := sd.rangeDamage }
      { defense := sa.defense }⌉.toNat)
    (min (ma * ⌈sd.health / calculateDamage
      { attack := sa.attack, rangeDamage := sa.rangeDamage } { defense := sd.defense }⌉.toNat)
      (md * ⌈sa.health / calculateDamage
      { attack := sd.attack, rangeDamage := sd.rangeDamage } { defense := sa.defense }⌉.toNat))
    rfl rfl rfl rfl rfl hAr hDr hs hcdA hcdD hma hmd rfl rfl hdADpos hdDApos hAhp hDhp
    hnA1 hnA2 hnD1 hnD2 rfl (by rw [hbridge]; exact hcap)
    (simFuel (effMaxDurationMs cfg) (effTimeStepMs cfg)) 0 0 0 0
    (Nat.zero_le _) hfuel (Or.inl rfl) (Nat.zero_le _) (Or.inl rfl) (Nat.zero_le _)
  have hA0duel : duelA (duelUnit (effAttackerType cfg) Team.attacker 1 sa)
      (effTimeStepMs cfg)
      (calculateDamage { attack := sd.attack, rangeDamage := sd.rangeDamage }
        { defense := sa.defense }) ma 0 0 =
      duelUnit (effAttackerType cfg) Team.attacker 1 sa := by
    simp [duelA, duelUnit]
  have hD0duel : duelD (duelUnit (effDefenderType cfg) Team.defender 2 sd)
      (effTimeStepMs cfg)
      (calculateDamage { attack := sa.attack, rangeDamage := sa.rangeDamage }
        { defense := sd.defense }) md 0 0 =
      duelUnit (effDefenderType cfg) Team.defender 2 sd := by
    simp [duelD, duelUnit]
  rw [hA0duel, hD0duel] at hus
  rw [show (((0 : ℕ) : ℚ)) * effTimeStepMs cfg = (0 : ℚ) by simp] at hus
  unfold simulateBattleAux
  simp only [hpackA, hpackD, List.singleton_append]
  rw [show ([duelUnit (effAttackerType cfg) Team.attacker 1 sa,
      duelUnit (effDefenderType cfg) Team.defender 2 sd] : List SimUnit) =
      [duelUnit (effAttackerType cfg) Team.attacker 1 sa] ++
      [duelUnit (effDefenderType cfg) Team.defender 2 sd] from rfl] at hus
  simp only [List.singleton_append] at hus
  simp only [hus]
  refine ⟨_, _, rfl, ?_⟩
  simp only [mkSimulationResult]
  rw [add_mul, one_mul, hbridge]

/-- C8 counterexample: the warrior (25 hp) dies to the dwarf's 9 damage after
`ceil(25/9) = 3` hits of 450 ms cooldown, so the claimed duration is
`3 * 450 = 1350`; the resolver reports 1400 (one extra 50 ms step). -/
theorem simulateBattle_duel_duration_off_by_one_step :
    (match simulateBattle cfgWarriorDwarfDuel with
      | Except.ok (some r) => r.durationMs
      | _ => 0) = 1400 ∧
    min ((deriveBattleStats (unitCombatStats (Sum.inl RegularUnitType.warrior))).cooldownMs *
        ((⌈(unitCombatStats (Sum.inl RegularUnitType.dwarf)).health /
          calculateDamage
            { attack := (unitCombatStats (Sum.inl RegularUnitType.warrior)).attack,
              rangeDamage := (unitCombatStats (Sum.inl RegularUnitType.warrior)).rangeDamage }
            { defense := (unitCombatStats (Sum.inl RegularUnitType.dwarf)).defense }⌉ : ℤ) : ℚ))
      ((deriveBattleStats (unitCombatStats (Sum.inl RegularUnitType.dwarf))).cooldownMs *
        ((⌈(unitCombatStats (Sum.inl RegularUnitType.warrior)).health /
          calculateDamage
            { attack := (unitCombatStats (Sum.inl RegularUnitType.dwarf)).attack,
              rangeDamage := (unitCombatStats (Sum.inl RegularUnitType.dwarf)).rangeDamage }
            { defense := (unitCombatStats (Sum.inl RegularUnitType.warrior)).defense }⌉ : ℤ) : ℚ))
      = 1350 ∧
    (1400 : ℚ) ≠ 1350 := by
  refine ⟨by rfl, by decide, by decide⟩

/-- Witness for C8's amended theorem at the warrior-vs-dwarf stationary duel
(cooldowns 450 = 9 * 50 on both sides). -/
theorem simulateBattle_stationary_duel_duration_witness :
    ∃ r n, simulateBattleAux cfgWarriorDwarfDuel = Except.ok (some (r, n)) ∧
      r.durationMs =
        min ((deriveBattleStats (unitCombatStats (Sum.inl RegularUnitType.warrior))).cooldownMs *
            ((⌈(unitCombatStats (Sum.inl RegularUnitType.dwarf)).health /
              calculateDamage
                { attack := (unitCombatStats (Sum.inl RegularUnitType.warrior)).attack,
                  rangeDamage := (unitCombatStats (Sum.inl RegularUnitType.warrior)).rangeDamage }
                { defense := (unitCombatStats (Sum.inl RegularUnitType.dwarf)).defense }⌉ : ℤ) : ℚ))
          ((deriveBattleStats (unitCombatStats (Sum.inl RegularUnitType.dwarf))).cooldownMs *
            ((⌈(unitCombatStats (Sum.inl RegularUnitType.warrior)).health /
              calculateDamage
                { attack := (unitCombatStats (Sum.inl RegularUnitType.dwarf)).attack,
                  rangeDamage := (unitCombatStats (Sum.inl RegularUnitType.dwarf)).rangeDamage }
                { defense := (unitCombatStats (Sum.inl RegularUnitType.warrior)).defense }⌉ : ℤ) : ℚ))
          + effTimeStepMs cfgWarriorDwarfDuel :=
  simulateBattle_stationary_duel_duration cfgWarriorDwarfDuel
    (unitCombatStats (Sum.inl RegularUnitType.warrior))
    (unitCombatStats (Sum.inl RegularUnitType.dwarf)) 9 9
    (by decide) (by decide) (by decide) (by decide) (by decide) (by decide)
    (by decide) (by decide) (by decide) (by decide) (by decide) (by decide)
    (by decide) (by decide) (by decide)

/-- C6 (amended): every point strictly inside the neutral strip
`(360, 480)` is rejected as a placement point for both teams, with the
manager state untouched; the boundary `x = 360` itself, however, is accepted
for the attacker (the attacker-zone test is inclusive). -/
theorem spawnPack_rejects_neutral_strip (st : DMState) (x y : ℚ) (team : Team)
    (type : UnitType) (h1 : 360 < x) (h2 : x < 480) :
    DeployManager.spawnPack st x y team type = Except.ok st := by
  cases team with
  | attacker =>
      have hout : ¬ (x ≤ ZONE_ATTACKER.x + ZONE_ATTACKER.width) := by
        simp only [ZONE_ATTACKER, MAP_WIDTH]
        intro hcon
        norm_num at hcon
        linarith
      simp [DeployManager.spawnPack, DeployManager.getZoneForTeam,
        DeployManager.pointInZone, hout]
  | defender =>
      have hout : ¬ (ZONE_DEFENDER.x ≤ x) := by
        simp only [ZONE_DEFENDER, MAP_WIDTH]
        intro hcon
        norm_num at hcon
        linarith
      simp [DeployManager.spawnPack, DeployManager.getZoneForTeam,
        DeployManager.pointInZone, hout]

/-- Witness for C6's amended theorem at `x = 420`, the middle of the strip. -/
theorem spawnPack_rejects_neutral_strip_witness :
    DeployManager.spawnPack initialDMState 420 100 Team.attacker
      (UnitType.regular RegularUnitType.warrior) = Except.ok initialDMState :=
  spawnPack_rejects_neutral_strip initialDMState 420 100 Team.attacker
    (UnitType.regular RegularUnitType.warrior) (by norm_num) (by norm_num)

/-- C6 counterexample: `x = 360` lies in the claimed neutral strip
`[360, 480)`, yet it passes the attacker's inclusive zone test and placing a
pack there succeeds (one pack is added). -/
theorem neutral_strip_left_edge_is_placeable :
    DeployManager.pointInZone 360 100 ZONE_ATTACKER = true ∧
    (match DeployManager.spawnPack initialDMState 360 100 Team.attacker
        (UnitType.regular RegularUnitType.warrior) with
      | Except.ok st => st.packs.length
      | Except.error _ => 0) = 1 := by
  constructor
  · decide
  · rfl

/-- C7: an arming request whose candidate pack is smaller than a full pack,
or of a ranged Regular type (base range present), or of a Hero or
WarMachine type, is rejected with the pack map unchanged: no consumption,
no stat change, no removal. -/
theorem armWarMachine_failure_is_noop (st : DMState) (wm arm : DeployPack)
    (h : arm.size < PACK_SIZE ∨
      (∃ r, arm.type = UnitType.regular r ∧
        ((unitCombatStats (Sum.inl r)).range).isSome = true) ∨
      isHeroType arm.type = true ∨ isWarMachine arm.type = true) :
    DeployManager.armWarMachine st wm arm = st := by
  cases harm : arm.type with
  | hero h0 => simp [DeployManager.armWarMachine, harm]
  | warMachine w0 => simp [DeployManager.armWarMachine, harm]
  | regular r =>
      rcases h with hsize | ⟨r2, hr2, hrange⟩ | hh | hw
      · by_cases hrg : (match (unitCombatStats (Sum.inl r)).range with
            | some v => decide (0 < v)
            | none => false) = true
        · simp [DeployManager.armWarMachine, harm, hrg]
        · simp [DeployManager.armWarMachine, harm, hrg, hsize]
      · have hr : r2 = r := by
          rw [harm] at hr2
          exact (UnitType.regular.injEq _ _).mp hr2.symm
      -- every catalog range that is present is positive, so the
      -- truthiness guard fires
        have hguard : ∀ r3 : RegularUnitType,
            ((unitCombatStats (Sum.inl r3)).range).isSome = true →
            (match (unitCombatStats (Sum.inl r3)).range with
              | some v => decide (0 < v)
              | none => false) = true := by decide
        have := hguard r (hr ▸ hrange)
        simp [DeployManager.armWarMachine, harm, this]
      · rw [harm] at hh
        simp [isHeroType] at hh
      · rw [harm] at hw
        simp [isWarMachine] at hw

/-- Witness for C7: a five-strong warrior pack fails to arm a ballista and
the two-pack state is unchanged. -/
theorem armWarMachine_failure_is_noop_witness :
    DeployManager.armWarMachine { packs := [ballistaPack, smallWarriorPack], nextPackId := 3 }
      ballistaPack smallWarriorPack =
      { packs := [ballistaPack, smallWarriorPack], nextPackId := 3 } :=
  armWarMachine_failure_is_noop _ _ _ (Or.inl (by decide))


lemma getTeamUnitCount_eq_zero_iff {st : DMState} {team : Team}
    (hsizes : ∀ p ∈ st.packs, 1 ≤ p.size) :
    DeployManager.getTeamUnitCount st team = 0 ↔
      st.packs.filter (fun p => decide (p.team = team)) = [] := by
  unfold DeployManager.getTeamUnitCount
  constructor
  · intro h0
    rcases hfe : st.packs.filter (fun p => decide (p.team = team)) with _ | ⟨p, rest⟩
    · exact hfe
    · exfalso
      have hp : p ∈ st.packs :=
        (List.mem_filter.mp (hfe ▸ List.mem_cons_self p rest)).1
      have hsz := hsizes p hp
      rw [hfe] at h0
      simp [List.sum_cons] at h0
      omega
  · intro hfe
    rw [hfe]
    rfl

/-- C4: in the deploy phase, auto-resolve returns `null` and leaves the
whole scene state unchanged whenever a precondition fails: a side with zero
units deployed, a side with more than one distinct unit type, or any armed
war machine on the field. -/
theorem autoResolveBattle_null_on_failed_preconditions (st : SceneState)
    (hphase : st.phase = Phase.deploy)
    (hsizes : ∀ p ∈ st.dm.packs, 1 ≤ p.size)
    (h : DeployManager.getTeamUnitCount st.dm Team.attacker = 0 ∨
      DeployManager.getTeamUnitCount st.dm Team.defender = 0 ∨
      1 < ((st.dm.packs.filter (fun p => decide (p.team = Team.attacker))).map
        (fun p => p.type)).dedup.length ∨
      1 < ((st.dm.packs.filter (fun p => decide (p.team = Team.defender))).map
        (fun p => p.type)).dedup.length ∨
      ∃ p ∈ st.dm.packs, isWarMachine p.type = true ∧ p.armedWarMachine.isSome = true) :
    BattleScene.autoResolveBattle st = Except.ok (none, st) := by
  unfold BattleScene.autoResolveBattle
  rw [if_neg (by simp [hphase])]
  by_cases hempty : (st.dm.packs.filter (fun p => decide (p.team = Team.attacker))).length = 0 ∨
      (st.dm.packs.filter (fun p => decide (p.team = Team.defender))).length = 0
  · rw [if_pos hempty]
  · rw [if_neg hempty]
    push_neg at hempty
    obtain ⟨hneA, hneD⟩ := hempty
    have hfneA : st.dm.packs.filter (fun p => decide (p.team = Team.attacker)) ≠ [] := by
      intro hcon
      exact hneA (by rw [hcon]; rfl)
    have hfneD : st.dm.packs.filter (fun p => decide (p.team = Team.defender)) ≠ [] := by
      intro hcon
      exact hneD (by rw [hcon]; rfl)
    have hcountA : DeployManager.getTeamUnitCount st.dm Team.attacker ≠ 0 := by
      intro hcon
      exact hfneA ((getTeamUnitCount_eq_zero_iff hsizes).mp hcon)
    have hcountD : DeployManager.getTeamUnitCount st.dm Team.defender ≠ 0 := by
      intro hcon
      exact hfneD ((getTeamUnitCount_eq_zero_iff hsizes).mp hcon)
    rcases hdA : ((st.dm.packs.filter (fun p => decide (p.team = Team.attacker))).map
        (fun p => p.type)).dedup with _ | ⟨tA, restA⟩
    · simp [hdA]
    rcases hdD : ((st.dm.packs.filter (fun p => decide (p.team = Team.defender))).map
        (fun p => p.type)).dedup with _ | ⟨tD, restD⟩
    · simp [hdA, hdD]
    rcases restA with _ | ⟨tA2, restA2⟩
    rotate_left
    · simp [hdA, hdD]
    rcases restD with _ | ⟨tD2, restD2⟩
    rotate_left
    · simp [hdA, hdD]
    rcases h with h1 | h2 | h3 | h4 | ⟨p, hp, hwm, harm⟩
    · exact absurd h1 hcountA
    · exact absurd h2 hcountD
    · rw [hdA] at h3
      simp at h3
    · rw [hdD] at h4
      simp at h4
    · have hany : st.dm.packs.any
          (fun p => isWarMachine p.type && p.armedWarMachine.isSome) = true :=
        List.any_eq_true.mpr ⟨p, hp, by simp [hwm, harm]⟩
      simp only [hdA, hdD]
      rw [if_pos hany]

/-- Witness for C4 with zero defender units deployed. -/
theorem autoResolveBattle_null_on_failed_preconditions_witness :
    BattleScene.autoResolveBattle sceneLoneAttacker = Except.ok (none, sceneLoneAttacker) :=
  autoResolveBattle_null_on_failed_preconditions sceneLoneAttacker rfl
    (by decide) (Or.inr (Or.inl (by decide)))

end ArmiesBattle